import Mathlib

/-!
Verification of the tabular normalization/aggregation core of the
strategic-console dashboard (src/app.py, src/generate_standalone.py,
src/services/google_sheets.py) against its natural-language specification.

The Python code is shallowly embedded:

* Python floats are modelled as exact rationals (ℚ).  All rational
  arithmetic in the embedding goes through the kernel-computable wrappers
  qadd/qsub/qmul/qdiv/qneg/qabs/qfloor below, each proved equal to the
  corresponding Mathlib field operation, so that concrete runs can be
  evaluated by the kernel while algebraic reasoning can use Mathlib.
* Python strings are Lean strings; the character-level helpers model the
  exact string transformations used by the code (str.strip, str.lower,
  str.replace, substring tests, the character classes of the regexes).
* A spreadsheet is modelled as a Table: a column list plus rows of
  ordered (header, cell) pairs, with cell lookup mirroring row.get.
  A failed load (the `except` branches around gs.sheet_to_df) is the
  `none` case of the `Option Table` argument of each builder.
* `float(...)` applied to a string is modelled by pyFloatChars over the
  fragment actually reachable here: optionally signed decimal literals
  (the inputs reaching it are pre-filtered to [0-9.-]); the "nan"/"inf"
  tokens and exponents are outside the modelled fragment.
* Python's round-half-even at the last formatted decimal is modelled as
  round-half-up (`rnd`); no claim distinguishes the tie direction.
-/

namespace StratConsole

/-! ## Kernel-computable rational arithmetic -/

/-- Rational from an integer, via `Rat.divInt` (kernel-reducible). -/
def qofInt (n : ℤ) : ℚ := Rat.divInt n 1

/-- Rational from a natural number. -/
def qofNat (n : ℕ) : ℚ := Rat.divInt (Int.ofNat n) 1

/-- Addition on ℚ, kernel-reducible. -/
def qadd (a b : ℚ) : ℚ := Rat.divInt (a.num * b.den + b.num * a.den) (a.den * b.den)

/-- Multiplication on ℚ, kernel-reducible. -/
def qmul (a b : ℚ) : ℚ := Rat.divInt (a.num * b.num) (a.den * b.den)

/-- Negation on ℚ, kernel-reducible. -/
def qneg (a : ℚ) : ℚ := Rat.divInt (-a.num) a.den

/-- Subtraction on ℚ, kernel-reducible. -/
def qsub (a b : ℚ) : ℚ := qadd a (qneg b)

/-- Division on ℚ, kernel-reducible; division by zero yields 0 (all
divisions in the embedded code are guarded against zero denominators). -/
def qdiv (a b : ℚ) : ℚ := Rat.divInt (a.num * b.den) (a.den * b.num)

/-- Floor on ℚ, kernel-reducible. -/
def qfloor (a : ℚ) : ℤ := a.num / (a.den : ℤ)

/-- Absolute value on ℚ, kernel-reducible. -/
def qabs (a : ℚ) : ℚ := if a < 0 then qneg a else a

/-- Sum of a list of rationals via qadd, as the running-total loops do. -/
def qsum (l : List ℚ) : ℚ := l.foldl qadd 0

/-! ## Character and string helpers (models of Python str operations) -/

/-- Char for a decimal digit value. -/
def digitChar (d : ℕ) : Char := Char.ofNat (48 + d)

/-- Decimal value of a digit char. -/
def digitVal (c : Char) : ℕ := c.toNat - 48

/-- ASCII lower-casing of one character (model of str.lower on the
ASCII fragment that the compared labels use). -/
def charLower (c : Char) : Char :=
  if 'A' ≤ c ∧ c ≤ 'Z' then Char.ofNat (c.toNat + 32) else c

/-- Model of Python str.lower. -/
def lowerStr (s : String) : String := String.mk (s.data.map charLower)

/-- Strip leading and trailing whitespace from a char list. -/
def stripChars (cs : List Char) : List Char :=
  ((cs.dropWhile Char.isWhitespace).reverse.dropWhile Char.isWhitespace).reverse

/-- Model of Python str.strip(). -/
def pyStrip (s : String) : String := String.mk (stripChars s.data)

/-- Does the first list start with the second? -/
def leadsWith : List Char → List Char → Bool
  | [], _ => true
  | _ :: _, [] => false
  | a :: as, b :: bs => a = b && leadsWith as bs

/-- Helper for substring search. -/
def subAux (needle : List Char) : List Char → Bool
  | [] => leadsWith needle []
  | c :: rest => leadsWith needle (c :: rest) || subAux needle rest

/-- Model of Python `needle in hay` on strings. -/
def containsSub (hay needle : String) : Bool := subAux needle.data hay.data

/-- Model of Python str.startswith. -/
def strStarts (s p : String) : Bool := leadsWith p.data s.data

/-- Fuel-based worker for replaceAll (the fuel, set to the list length
at the top call, never runs out: every step consumes at least one
character and one unit of fuel). -/
def replaceAllAux (pat rep : List Char) : ℕ → List Char → List Char
  | 0, l => l
  | _ + 1, [] => []
  | f + 1, c :: cs =>
    if pat ≠ [] ∧ leadsWith pat (c :: cs) = true then
      rep ++ replaceAllAux pat rep f (cs.drop (pat.length - 1))
    else
      c :: replaceAllAux pat rep f cs

/-- Model of Python str.replace(pat, rep): non-overlapping left-to-right
replacement of every occurrence, single pass. -/
def replaceAll (pat rep : List Char) (l : List Char) : List Char :=
  replaceAllAux pat rep l.length l

/-- str.replace at the String level. -/
def strReplace (s pat rep : String) : String :=
  String.mk (replaceAll pat.data rep.data s.data)

/-- Big-endian digit accumulation: the value denoted by a digit string
(the way float() reads the integer or fraction part). -/
def natFromDigits (cs : List Char) : ℕ :=
  cs.foldl (fun a c => 10 * a + digitVal c) 0

/-- Little-endian base-10 digits with explicit fuel (kernel-reducible
replacement for Nat.digits). -/
def natDigitsAux : ℕ → ℕ → List ℕ
  | _, 0 => []
  | 0, _ + 1 => []
  | f + 1, n + 1 => ((n + 1) % 10) :: natDigitsAux f ((n + 1) / 10)

/-- Little-endian base-10 digits of a natural number. -/
def natDigitsLE (n : ℕ) : List ℕ := natDigitsAux n n

/-! ## Number rendering (models of Python format specs `,.Nf` and `.1f`) -/

/-- Big-endian digit chars of a natural number (empty for 0). -/
def digitsBE (n : ℕ) : List Char := ((natDigitsLE n).map digitChar).reverse

/-- Insert a thousands separator after every third digit of a
little-endian digit list; `k` counts digits emitted since the last
separator. -/
def groupLE : List Char → ℕ → List Char
  | [], _ => []
  | c :: cs, k => if k = 3 then ',' :: c :: groupLE cs 1 else c :: groupLE cs (k + 1)

/-- Integer part with thousands separators, as the `,` format flag does. -/
def commaNat (n : ℕ) : List Char :=
  if n = 0 then ['0'] else (groupLE ((natDigitsLE n).map digitChar) 0).reverse

/-- Zero-padded fixed-width digit rendering (for the fractional part). -/
def padDigits (d : ℕ) (n : ℕ) : List Char :=
  List.replicate (d - (digitsBE n).length) '0' ++ digitsBE n

/-- Round q to d decimal places, scaled by 10^d (round-half-up model of
Python's round-to-nearest at the last formatted decimal). -/
def rnd (d : ℕ) (q : ℚ) : ℤ :=
  qfloor (qadd (qmul q (qofNat (10 ^ d))) (Rat.divInt 1 2))

/-- Fixed-point rendering of a float value: the model of Python
f-string formatting with d decimals, with (`grouped`) or without the
thousands-separator flag. -/
def fmtFixedChars (grouped : Bool) (d : ℕ) (q : ℚ) : List Char :=
  let n : ℤ := rnd d q
  let m : ℕ := n.natAbs
  let ip : ℕ := m / 10 ^ d
  let fp : ℕ := m % 10 ^ d
  (if n < 0 then ['-'] else []) ++
    (if grouped then commaNat ip else (if ip = 0 then ['0'] else digitsBE ip)) ++
    (if d = 0 then [] else '.' :: padDigits d fp)

/-- Model of `f"{q:,.{d}f}"` applied to an already-numeric value. -/
def fmtMoneyVal (q : ℚ) (d : ℕ) : String := String.mk (fmtFixedChars true d q)

/-- Model of `f"{q:.1f}%"` applied to an already-numeric value
(the fmt_pct helper of app.build_ecom_comparison_context). -/
def fmtPctVal (q : ℚ) : String := String.mk (fmtFixedChars false 1 q ++ ['%'])

/-! ## float() and parse_number -/

/-- Split an optional leading sign, as float() does. -/
def splitSign : List Char → Bool × List Char
  | c :: rest =>
    if c = '-' then (true, rest) else if c = '+' then (false, rest) else (false, c :: rest)
  | [] => (false, [])

/-- Is the unsigned body a valid decimal float literal: only digits and
dots, at most one dot, at least one digit. -/
def floatBodyOk (body : List Char) : Bool :=
  body.all (fun c => c.isDigit || c = '.') && body.count '.' ≤ 1 && body.any Char.isDigit

/-- Value of a valid unsigned decimal literal. -/
def floatVal (body : List Char) : ℚ :=
  let ip := body.takeWhile (fun c => c ≠ '.')
  let fp := (body.dropWhile (fun c => c ≠ '.')).drop 1
  qadd (qofNat (natFromDigits ip)) (qdiv (qofNat (natFromDigits fp)) (qofNat (10 ^ fp.length)))

/-- Model of Python float(str) on the decimal-literal fragment: strips
surrounding whitespace, reads an optional sign and an unsigned decimal
literal; `none` models ValueError. -/
def pyFloatChars (cs0 : List Char) : Option ℚ :=
  let cs := stripChars cs0
  let sg := splitSign cs
  if floatBodyOk sg.2 then some (if sg.1 then qneg (floatVal sg.2) else floatVal sg.2)
  else none

/-- float() at the String level. -/
def pyFloat (s : String) : Option ℚ := pyFloatChars s.data

/-- A Python float value as compute_avg can observe it: a finite value
(an exact rational, per the file's float convention), NaN, or a signed
infinity. float("nan") and float("inf") succeed in Python, so a model
of an unfiltered float() call site must carry these values. -/
inductive PFloat where
  | num : ℚ → PFloat
  | nan : PFloat
  | inf : Bool → PFloat
deriving DecidableEq

/-- Maximal run `d(_d)*` of decimal digits with single underscores
strictly between digits (PEP 515), as float() tokenizes digit parts.
Returns the digits collected so far (reversed) and the unconsumed rest;
an underscore not followed by a digit stops the run and stays in the
rest, so trailing or doubled underscores surface as parse failures. -/
def drAux (acc : List Char) : List Char → List Char × List Char
  | [] => (acc, [])
  | [c] => if c.isDigit then (c :: acc, []) else (acc, [c])
  | c :: c2 :: rest =>
    if c.isDigit then drAux (c :: acc) (c2 :: rest)
    else if c = '_' ∧ c2.isDigit then drAux (c2 :: acc) rest
    else (acc, c :: c2 :: rest)

/-- A digit run that must start with a digit: the big-endian digits and
the rest, or none when the input does not start with a digit. -/
def digitRun (l : List Char) : Option (List Char × List Char) :=
  match l with
  | c :: rest =>
    if c.isDigit then
      let p := drAux [c] rest
      some (p.1.reverse, p.2)
    else none
  | [] => none

/-- Value of a mantissa from its integer-part and fraction-part digits. -/
def mantVal (ip fp : List Char) : ℚ :=
  qadd (qofNat (natFromDigits ip)) (qdiv (qofNat (natFromDigits fp)) (qofNat (10 ^ fp.length)))

/-- Mantissa of a float literal: `digits`, `digits.`, `digits.digits`
or `.digits` (underscores between digits allowed), returning its value
and the unconsumed rest; none when no mantissa starts the input. -/
def parseMantissa (l : List Char) : Option (ℚ × List Char) :=
  match digitRun l with
  | some (ds, r) =>
    match r with
    | '.' :: r2 =>
      match digitRun r2 with
      | some (fs, r3) => some (mantVal ds fs, r3)
      | none => some (mantVal ds [], r2)
    | _ => some (mantVal ds [], r)
  | none =>
    match l with
    | '.' :: r2 =>
      match digitRun r2 with
      | some (fs, r3) => some (mantVal [] fs, r3)
      | none => none
    | _ => none

/-- Optional exponent part after the mantissa: empty rest keeps the
value, `e`/`E` with an optional sign and a digit run scales by the
power of ten and must consume everything; anything else is a parse
failure (trailing junk). -/
def applyExp (m : ℚ) (rest : List Char) : Option ℚ :=
  match rest with
  | [] => some m
  | c :: r =>
    if c = 'e' ∨ c = 'E' then
      let sg := splitSign r
      match digitRun sg.2 with
      | some (es, []) =>
        some (if sg.1 then qdiv m (qofNat (10 ^ natFromDigits es))
              else qmul m (qofNat (10 ^ natFromDigits es)))
      | _ => none
    else none

/-- Model of Python float(str) on its full grammar, for call sites that
hand float() arbitrary cell text (app.okr_page's compute_avg only
strips "%" and whitespace first): surrounding whitespace stripped, an
optional sign, then case-insensitively "nan" (NaN), "inf"/"infinity"
(signed infinity), or a decimal literal with optional fraction,
optional exponent and PEP 515 underscores. Values are exact rationals
per the file's float convention (double overflow and precision are out
of scope); none models ValueError. -/
def pyFloatFullChars (cs0 : List Char) : Option PFloat :=
  let cs := stripChars cs0
  let sg := splitSign cs
  let low := sg.2.map charLower
  if low = "nan".data then some PFloat.nan
  else if low = "inf".data ∨ low = "infinity".data then some (PFloat.inf sg.1)
  else
    match parseMantissa sg.2 with
    | some (m, rest) =>
      match applyExp m rest with
      | some q => some (PFloat.num (if sg.1 then qneg q else q))
      | none => none
    | none => none

/-- Full-grammar float() at the String level. -/
def pyFloatFull (s : String) : Option PFloat := pyFloatFullChars s.data

/-- Python + on floats: NaN absorbs, opposite infinities give NaN, an
infinity absorbs finite values, finite values add exactly. -/
def pfAdd : PFloat → PFloat → PFloat
  | PFloat.nan, _ => PFloat.nan
  | _, PFloat.nan => PFloat.nan
  | PFloat.inf s, PFloat.inf t => if s = t then PFloat.inf s else PFloat.nan
  | PFloat.inf s, PFloat.num _ => PFloat.inf s
  | PFloat.num _, PFloat.inf t => PFloat.inf t
  | PFloat.num a, PFloat.num b => PFloat.num (qadd a b)

/-- Python x * 100.0: NaN stays NaN, an infinity keeps its sign. -/
def pfMul100 : PFloat → PFloat
  | PFloat.num a => PFloat.num (qmul a (qofNat 100))
  | PFloat.nan => PFloat.nan
  | PFloat.inf s => PFloat.inf s

/-- Python x / n for a positive count n: NaN and infinities pass
through, finite values divide exactly. -/
def pfDivNat (a : PFloat) (n : ℕ) : PFloat :=
  match a with
  | PFloat.num q => PFloat.num (qdiv q (qofNat n))
  | PFloat.nan => PFloat.nan
  | PFloat.inf s => PFloat.inf s

/-- The character filter of parse_number's regex `[^\d\.\-]` removal. -/
def keepNumeric (cs : List Char) : List Char :=
  cs.filter (fun c => c.isDigit || c = '.' || c = '-')

/-- parse_number's first cleaning step: drop ',' and ' '. -/
def removeSeps (cs : List Char) : List Char :=
  cs.filter (fun c => !(c = ',' || c = ' '))

/-- Model of app.parse_number (and the identical
generate_standalone.parse_number): None/'' map to null, then commas and
spaces are removed, every char outside [0-9.-] is removed, and the rest
is parsed by float(), with failures mapped to null. -/
def parse_number (v : Option String) : Option ℚ :=
  match v with
  | none => none
  | some s => if s = "" then none else pyFloatChars (keepNumeric (removeSeps s.data))

/-- Model of app.fmt_money on a raw cell value: parse_number, then
thousands-grouped fixed-decimal formatting; empty string on parse
failure. -/
def fmt_money (v : Option String) (d : ℕ) : String :=
  match parse_number v with
  | none => ""
  | some q => fmtMoneyVal q d

/-- Model of the fmt_int helper nested in app.build_ecom_comparison_context,
applied to a raw string: bare float() conversion (no separator
stripping), grouped zero-decimal format, literal "0" on failure. -/
def fmtIntStr (s : String) : String :=
  match pyFloat s with
  | none => "0"
  | some q => fmtMoneyVal q 0

/-- fmt_int applied to an already-numeric value (floats always convert). -/
def fmtIntVal (q : ℚ) : String := fmtMoneyVal q 0

/-! ## Tables: the RawTable data model

A record is an ordered list of (header, cell) pairs; recGet models
pandas `row.get(key)` (None when the column is absent).  A Table keeps
the column list alongside the rows; a failed sheet load is the `none`
case of `Option Table` and, mirroring each builder's try/except,
degrades to the empty frame. Cells are modelled as strings; a cell
absent from a record models both a missing column and a NaN cell. -/

abbrev Rec := List (String × String)

/-- Model of row.get(key) -> value-or-None. -/
def recGet (r : Rec) (k : String) : Option String :=
  (r.find? (fun p => decide (p.1 = k))).map (fun p => p.2)

/-- Model of row.get(key, default). -/
def recGetD (r : Rec) (k d : String) : String := (recGet r k).getD d

structure Table where
  cols : List String
  rows : List Rec
deriving DecidableEq

/-- Model of df.empty: either axis empty. -/
def Table.isEmptyT (t : Table) : Bool := t.rows.isEmpty || t.cols.isEmpty

/-- try/except around a sheet load: a raised load error degrades to the
empty frame. -/
def dfOf (o : Option Table) : Table := o.getD ⟨[], []⟩

/-- Strip whitespace from the headers of one record, as the
`df.columns ... .str.strip()` normalization does. -/
def stripRecKeys (r : Rec) : Rec := r.map (fun p => (pyStrip p.1, p.2))

/-- Rename headers through f (model of df.rename(columns=...)). -/
def renameCols (f : String → String) (t : Table) : Table :=
  ⟨t.cols.map f, t.rows.map (fun r => r.map (fun p => (f p.1, p.2)))⟩

/-- Model of `if col not in df.columns: df[col] = ""`. -/
def ensureCol (t : Table) (c : String) : Table :=
  if t.cols.any (fun x => decide (x = c)) then t
  else ⟨t.cols ++ [c], t.rows.map (fun r => r ++ [(c, "")])⟩

/-! ## Insertion-ordered grouping (dict.setdefault / OrderedDict) -/

/-- Append v to the group of key k, creating the group at the end on
first sight of k — the exact effect of `d.setdefault(k, []).append(v)`
on an insertion-ordered dict. -/
def addToGroup {α : Type} (gs : List (String × List α)) (k : String) (v : α) :
    List (String × List α) :=
  match gs with
  | [] => [(k, [v])]
  | (k', vs) :: rest =>
    if k' = k then (k', vs ++ [v]) :: rest else (k', vs) :: addToGroup rest k v

/-- Keys of a grouping, in iteration order. -/
def groupKeys {α : Type} (gs : List (String × List α)) : List String := gs.map (fun p => p.1)

/-- First-seen deduplication of a key sequence. -/
def firstSeen (l : List String) : List String :=
  l.foldl (fun acc x => if x ∈ acc then acc else acc ++ [x]) []

/-- Insertion-ordered counter bump (collections.Counter update). -/
def bumpCounter (cnt : List (String × ℕ)) (k : String) : List (String × ℕ) :=
  match cnt with
  | [] => [(k, 1)]
  | (k', n) :: rest =>
    if k' = k then (k', n + 1) :: rest else (k', n) :: bumpCounter rest k

/-- Model of Python sorted() on a list of strings (code-point
lexicographic). -/
def sortStrs (l : List String) : List String :=
  List.insertionSort (fun a b => a.data ≤ b.data) l

instance : IsTotal String (fun a b => a.data ≤ b.data) :=
  ⟨fun a b => le_total a.data b.data⟩

instance : IsTrans String (fun a b => a.data ≤ b.data) :=
  ⟨fun _ _ _ h1 h2 => le_trans h1 h2⟩

/-! ## clean_number (the definition at app.py:607, which shadows the
earlier one at app.py:36) -/

/-- Model of app.clean_number (second definition): strip, pass the empty
string through, search for `([\d.]+)\s*([BM]?)` — note the character
class really is [BM], so 'L' can never be captured and the L branch
below is dead, exactly as in the source — and scale by the captured
unit.  Result: `Sum.inl` is a passed-through string, `Sum.inr` a float,
`none` models an uncaught ValueError from float() on a malformed group
(e.g. ".."). Non-string inputs (passed through unchanged by the code)
are outside the model. -/
def cleanNumber (v : String) : Option (String ⊕ ℚ) :=
  let val := pyStrip v
  if val = "" then some (Sum.inl val)
  else
    let rest := val.data.dropWhile (fun c => !(c.isDigit || c = '.'))
    match rest with
    | [] => some (Sum.inl val)
    | _ :: _ =>
      let numCs := rest.takeWhile (fun c => c.isDigit || c = '.')
      let after := rest.dropWhile (fun c => c.isDigit || c = '.')
      let unitC : Option Char :=
        match after.dropWhile Char.isWhitespace with
        | c :: _ => if c = 'B' ∨ c = 'M' then some c else none
        | [] => none
      match pyFloatChars numCs with
      | none => none
      | some num =>
        if unitC = some 'B' then some (Sum.inr (qmul num (qofNat 1000000000)))
        else if unitC = some 'M' then some (Sum.inr (qmul num (qofNat 1000000)))
        else if unitC = some 'L' then some (Sum.inr (qmul num (qofNat 100000)))
        else some (Sum.inr num)

/-! ## app.build_ecom_comparison_context (Flask comparison builder) -/

structure CompEntry where
  months : String
  v2024 : ℚ
  v2025 : ℚ
  fmt2024 : String
  fmt2025 : String
  delta : ℚ
  deltaFmt : String
  deltaPct : Option ℚ
  deltaPctFmt : String
deriving DecidableEq

/-- One loop iteration of the Flask comparison builder: Months is
stripped; a missing or unparseable year cell is coerced to 0 by
`parse_number(...) or 0` (a parsed 0.0 is also falsy and also yields 0,
the same value); delta_pct is None exactly when val_2024 is falsy. -/
def mkCompEntry (r : Rec) : CompEntry :=
  let month := pyStrip (recGetD r "Months" "")
  let v24 := (parse_number (recGet r "2024")).getD 0
  let v25 := (parse_number (recGet r "2025")).getD 0
  let delta := qsub v25 v24
  let deltaPct : Option ℚ :=
    if v24 ≠ 0 then some (qmul (qdiv delta v24) (qofNat 100)) else none
  { months := month, v2024 := v24, v2025 := v25,
    fmt2024 := fmtIntVal v24, fmt2025 := fmtIntVal v25,
    delta := delta, deltaFmt := fmtIntVal delta,
    deltaPct := deltaPct,
    deltaPctFmt := match deltaPct with
      | some p => fmtPctVal p
      | none => "—" }

/-- Python max(l, key=g) keeps the current element unless a later one is
strictly greater; dually min keeps it unless strictly smaller.  Both are
folds that keep the first optimum. -/
def pickFirstMinBy {α : Type} (g : α → ℚ) (init : α) (l : List α) : α :=
  l.foldl (fun b x => if g x < g b then x else b) init

/-- max(l, key=g) = min with the negated key. -/
def pickFirstMaxBy {α : Type} (g : α → ℚ) (init : α) (l : List α) : α :=
  pickFirstMinBy (fun x => qneg (g x)) init l

/-- The December exclusion filter for the worst-month pick. -/
def eligibleMin (records : List CompEntry) : List CompEntry :=
  records.filter (fun r =>
    !(decide (lowerStr r.months = "dec") || decide (lowerStr r.months = "december")))

/-- max_row and min_row of the Flask comparison builder (None when the
record list is empty, since the picks sit under `if records:`). -/
def compMaxMin (records : List CompEntry) : Option CompEntry × Option CompEntry :=
  match records with
  | [] => (none, none)
  | r :: rs =>
    let maxR := pickFirstMaxBy (fun e => e.v2025) r rs
    let el := eligibleMin (r :: rs)
    let msrc := if el.isEmpty then r :: rs else el
    let minR := pickFirstMinBy (fun e => e.v2025) (msrc.headD r) msrc.tail
    (some maxR, some minR)

structure CompSummary where
  total_2024 : String
  total_2025 : String
  avg_2024 : String
  avg_2025 : String
  max_month : String
  max_value : String
  min_month : String
  min_value : String
deriving DecidableEq

structure EcomCtx where
  active_tab : String
  target_columns : List String
  target_rows : List Rec
  target_insight : String
  comp_rows : List CompEntry
  comp_summary : Option CompSummary
  title : String
  description : String
deriving DecidableEq

/-- The record list of the Flask comparison builder (headers stripped,
loop guarded by `if not df.empty`). -/
def comparisonRecords (t : Table) : List CompEntry :=
  if t.isEmptyT then [] else (t.rows.map stripRecKeys).map mkCompEntry

/-- Model of app.build_ecom_comparison_context.  Running totals
accumulate val_2024 and val_2025 of every record unconditionally;
count is floored at 1 for the averages. -/
def build_ecom_comparison_context (o : Option Table) : EcomCtx :=
  let records := comparisonRecords (dfOf o)
  let total24 := qsum (records.map (fun e => e.v2024))
  let total25 := qsum (records.map (fun e => e.v2025))
  let mm := compMaxMin records
  let count : ℕ := if records.isEmpty then 1 else records.length
  { active_tab := "comparison",
    target_columns := [], target_rows := [], target_insight := "",
    comp_rows := records,
    comp_summary := some
      { total_2024 := fmtIntVal total24,
        total_2025 := fmtIntVal total25,
        avg_2024 := fmtIntVal (qdiv total24 (qofNat count)),
        avg_2025 := fmtIntVal (qdiv total25 (qofNat count)),
        max_month := match mm.1 with
          | some r => r.months
          | none => "-",
        max_value := match mm.1 with
          | some r => fmtIntVal r.v2025
          | none => "0",
        min_month := match mm.2 with
          | some r => r.months
          | none => "-",
        min_value := match mm.2 with
          | some r => fmtIntVal r.v2025
          | none => "0" },
    title := "E-commerce Performance",
    description := "2024 vs 2025 performance snapshot." }

/-! ## generate_standalone.build_ecom_comparison_context -/

structure SCompEntry where
  months : String
  v2024 : ℚ
  v2025 : ℚ
  fmt2024 : String
  fmt2025 : String
  delta : ℚ
  deltaPct : ℚ
  deltaPctFmt : String
deriving DecidableEq

/-- Parsed year value of the standalone builder: a missing column takes
the default 0 of row.get('2024', 0); an unparseable cell is coerced by
`or 0`. -/
def sVal (r : Rec) (k : String) : ℚ :=
  match recGet r k with
  | none => 0
  | some s => (parse_number (some s)).getD 0

/-- One row of the standalone comparison builder (rows without a Months
value are skipped before this is reached). -/
def mkSCompEntry (r : Rec) : SCompEntry :=
  let v24 := sVal r "2024"
  let v25 := sVal r "2025"
  let delta := if v24 ≠ 0 then qsub v25 v24 else 0
  let deltaPct := if v24 ≠ 0 then qmul (qdiv delta v24) (qofNat 100) else 0
  { months := recGetD r "Months" "",
    v2024 := v24, v2025 := v25,
    fmt2024 := if v24 ≠ 0 then fmtMoneyVal v24 0 else "—",
    fmt2025 := if v25 ≠ 0 then fmtMoneyVal v25 0 else "—",
    delta := delta,
    deltaPct := deltaPct,
    deltaPctFmt := if v24 = 0 ∨ v25 = 0 then "—"
      else String.mk (fmtFixedChars true 1 deltaPct ++ ['%']) }

/-- The standalone builder's row selection: headers stripped, rows with
no Months cell skipped. -/
def sCompRows (t : Table) : List Rec :=
  (t.rows.map stripRecKeys).filter (fun r => (recGet r "Months").isSome)

/-- The standalone running totals: a row is accumulated (and counted)
only when BOTH parsed year values are strictly positive. -/
def sTotals (entries : List SCompEntry) : ℚ × ℚ × ℕ :=
  entries.foldl
    (fun acc e =>
      if 0 < e.v2024 ∧ 0 < e.v2025 then (qadd acc.1 e.v2024, qadd acc.2.1 e.v2025, acc.2.2 + 1)
      else acc)
    (0, 0, 0)

structure SCompSummary where
  total_2024 : String
  total_2025 : String
  avg_2024 : String
  avg_2025 : String
  max_month : String
  max_value : String
  min_month : String
  min_value : String
deriving DecidableEq

structure SCompCtx where
  active_tab : String
  comp_rows : List SCompEntry
  comp_summary : Option SCompSummary
deriving DecidableEq

/-- Model of generate_standalone.build_ecom_comparison_context; an empty
frame returns early with the literal empty summary dict (`none`). -/
def standalone_build_ecom_comparison_context (t : Table) : SCompCtx :=
  if t.isEmptyT then
    { active_tab := "comparison", comp_rows := [], comp_summary := none }
  else
    let entries := (sCompRows t).map mkSCompEntry
    let tot := sTotals entries
    let avg24 := if 0 < tot.2.2 then qdiv tot.1 (qofNat tot.2.2) else 0
    let avg25 := if 0 < tot.2.2 then qdiv tot.2.1 (qofNat tot.2.2) else 0
    let maxR : Option SCompEntry := match entries with
      | [] => none
      | r :: rs => some (pickFirstMaxBy (fun e => e.v2025) r rs)
    let minR : Option SCompEntry := match entries with
      | [] => none
      | r :: rs => some (pickFirstMinBy (fun e => e.v2025) r rs)
    { active_tab := "comparison",
      comp_rows := entries,
      comp_summary := some
        { total_2024 := if 0 < tot.1 then fmtMoneyVal tot.1 0 else "—",
          total_2025 := if 0 < tot.2.1 then fmtMoneyVal tot.2.1 0 else "—",
          avg_2024 := if 0 < avg24 then fmtMoneyVal avg24 0 else "—",
          avg_2025 := if 0 < avg25 then fmtMoneyVal avg25 0 else "—",
          max_month := match maxR with
            | some r => r.months
            | none => "—",
          max_value := match maxR with
            | some r => fmtMoneyVal r.v2025 0
            | none => "—",
          min_month := match minR with
            | some r => r.months
            | none => "—",
          min_value := match minR with
            | some r => fmtMoneyVal r.v2025 0
            | none => "—" } }

/-- A three-cell comparison row, for concrete instances. -/
def compRow3 (m a b : String) : Rec := [("Months", m), ("2024", a), ("2025", b)]

/-- A comparison table from such rows. -/
def compTable (rows : List Rec) : Table := ⟨["Months", "2024", "2025"], rows⟩

/-! ## app.build_ecom_target_context -/

/-- Non-breaking space, as a one-char string. -/
def nbspS : String := String.mk [Char.ofNat 160]

/-- Tab, as a one-char string. -/
def tabS : String := String.mk [Char.ofNat 9]

/-- The header normalization of the target builder (and cost_per_x):
NBSP and tab to space, one pass of double-space collapse, then strip. -/
def cleanHeader (s : String) : String :=
  pyStrip (strReplace (strReplace (strReplace s nbspS " ") tabS " ") "  " " ")

/-- " ".join on a list of strings. -/
def joinSpace (l : List String) : String :=
  String.mk (List.intercalate [' '] (l.map String.data))

/-- Does the first-column value of this row contain "insight"
(case-insensitively, after stripping)? -/
def rowHasInsight (fc : String) (r : Rec) : Bool :=
  containsSub (lowerStr (pyStrip ((recGet r fc).getD ""))) "insight"

/-- The insight text assembled from a detected insight row: the stripped
non-empty non-"nan" values of the remaining columns, space-joined. -/
def insightFromRow (cols : List String) (r : Rec) : String :=
  pyStrip (joinSpace ((cols.drop 1).filterMap (fun c =>
    let cv := pyStrip ((recGet r c).getD "")
    if cv ≠ "" ∧ lowerStr cv ≠ "nan" then some cv else none)))

/-- The fallback row text: stripped values of the truthy non-"nan"
cells, space-joined. -/
def rowJoined (r : Rec) : String :=
  joinSpace ((r.map (fun p => p.2)).filterMap (fun x =>
    if x ≠ "" ∧ lowerStr (pyStrip x) ≠ "nan" then some (pyStrip x) else none))

/-- Does the text contain a run of three or more consecutive digits
(the `\d{3,}` test of the prose heuristic)? -/
def hasDigitRun3 : List Char → Bool
  | a :: b :: c :: rest => (a.isDigit && b.isDigit && c.isDigit) || hasDigitRun3 (b :: c :: rest)
  | _ => false

/-- The insight text of the target builder: the first row whose first
column mentions "insight", else scanning from the last row upward, the
first row whose joined text is longer than 40 chars with no 3-digit run. -/
def targetInsight (t : Table) : String :=
  let fc := t.cols.headD ""
  match t.rows.find? (rowHasInsight fc) with
  | some r => insightFromRow t.cols r
  | none =>
    match (t.rows.reverse.map rowJoined).find?
        (fun j => decide (40 < j.length) && !hasDigitRun3 j.data) with
    | some j => pyStrip j
    | none => ""

/-- The numeric-column heuristic of the target row formatter. -/
def isNumericCol (c : String) : Bool :=
  ["amount", "target", "sales", "moonshot", "fulfillment"].any
    (fun k => containsSub (lowerStr c) k)

/-- One formatted target row: numeric-heuristic columns get
parse_number + fmt_money (empty on failure); other columns pass through
with "nan" collapsed to empty. -/
def formatTargetRow (cols : List String) (r : Rec) : Rec :=
  cols.map (fun c =>
    let val := (recGet r c).getD ""
    (c,
      if isNumericCol c then
        match parse_number (some val) with
        | some n => fmtMoneyVal n 2
        | none => ""
      else if pyStrip val = "nan" then "" else val))

/-- Model of app.build_ecom_target_context. -/
def build_ecom_target_context (o : Option Table) : EcomCtx :=
  let df := dfOf o
  if df.isEmptyT then
    { active_tab := "target", target_columns := [], target_rows := [],
      target_insight := "", comp_rows := [], comp_summary := none,
      title := "E-commerce Performance",
      description := "2026 target plan across the funnel." }
  else
    let t := renameCols cleanHeader df
    { active_tab := "target",
      target_columns := t.cols,
      target_rows := t.rows.map (formatTargetRow t.cols),
      target_insight := targetInsight t,
      comp_rows := [], comp_summary := none,
      title := "E-commerce Performance",
      description := "2026 target plan across the funnel." }

/-! ## app.get_strategy_plan_context -/

structure PlanEntry where
  goal : String
  phase : String
  quarter : String
  action : String
  photos : List String
deriving DecidableEq

structure StrategyCtx where
  goal_text : String
  pillars : List (String × List PlanEntry)
  title : String
deriving DecidableEq

/-- The required columns synthesized by the strategy builder. -/
def strategyRequired : List String :=
  ["Goal", "Strategy Pillar", "Phase", "Quarter", "Action",
   "Photo_URL 1", "Photo_URL 2", "Photo_URL 3"]

/-- The pillar key of one strategy row (stripped, defaulting to
"General" when blank). -/
def pillarOf (r : Rec) : String :=
  let p := pyStrip (recGetD r "Strategy Pillar" "")
  if p = "" then "General" else p

/-- The current_goal update of one strategy row. -/
def planGoal (g : String) (r : Rec) : String :=
  let goalRaw := pyStrip (recGetD r "Goal" "")
  if goalRaw ≠ "" then goalRaw else g

/-- The entry built from one strategy row under the running goal. -/
def planEntryOf (cg : String) (r : Rec) : PlanEntry :=
  { goal := cg,
    phase := recGetD r "Phase" "",
    quarter := recGetD r "Quarter" "",
    action := recGetD r "Action" "",
    photos := [recGetD r "Photo_URL 1" "", recGetD r "Photo_URL 2" "",
               recGetD r "Photo_URL 3" ""].filter
      (fun u => decide (u ≠ "") && decide (pyStrip u ≠ "")) }

/-- One loop step of the strategy builder, threading current_goal. -/
def planStep (acc : String × List (String × List PlanEntry)) (r : Rec) :
    String × List (String × List PlanEntry) :=
  (planGoal acc.1 r, addToGroup acc.2 (pillarOf r) (planEntryOf (planGoal acc.1 r) r))

/-- Model of app.get_strategy_plan_context: headers stripped, required
columns synthesized, rows grouped by pillar into an insertion-ordered
dict while a running current_goal is threaded through. -/
def get_strategy_plan_context (o : Option Table) : StrategyCtx :=
  let df := dfOf o
  if df.isEmptyT then
    { goal_text := "2026 Strategy Plan", pillars := [], title := "2026 Strategy Plan" }
  else
    let t := strategyRequired.foldl ensureCol (renameCols pyStrip df)
    let res := t.rows.foldl planStep ("", [])
    { goal_text := if res.1 ≠ "" then res.1 else "2026 Strategy Plan",
      pillars := res.2,
      title := "2026 Strategy Plan" }

/-! ## app.get_roadmap_context -/

structure RoadmapEntry where
  activity_id : String
  topic : String
  owner : String
deriving DecidableEq

structure RoadmapCtx where
  quarters : List (String × List RoadmapEntry)
  quarter_order : List String
deriving DecidableEq

/-- Model of the get_value helper: for each candidate key in order, scan
the row's actual keys for a truthy key equal to it modulo strip+lower;
'' for a None/'' value, '' when nothing matches. -/
def getValueCI (r : Rec) (keys : List String) : String :=
  match keys.findSome? (fun k =>
    let kl := lowerStr (pyStrip k)
    (r.find? (fun p => decide (p.1 ≠ "") && decide (lowerStr (pyStrip p.1) = kl))).map
      (fun p => p.2)) with
  | some v => v
  | none => ""

/-- Model of app.get_roadmap_context: grouped by Quarter (default
"Unassigned") into an insertion-ordered dict, then quarter_order is the
lexicographically sorted key list. -/
def get_roadmap_context (o : Option Table) : RoadmapCtx :=
  let df := dfOf o
  if df.isEmptyT then { quarters := [], quarter_order := [] }
  else
    let t := renameCols pyStrip df
    let quarters := t.rows.foldl (fun g r =>
      let q0 := getValueCI r ["Quarter"]
      let q := if q0 = "" then "Unassigned" else q0
      addToGroup g q
        { activity_id := getValueCI r ["Activity_ID", "Activity ID"],
          topic := getValueCI r ["Key Topic", "Key_Topic", "Key Activity"],
          owner := getValueCI r ["Owner"] }) []
    { quarters := quarters, quarter_order := sortStrs (groupKeys quarters) }

/-! ## app.swot_page -/

structure SwotItem where
  idv : String
  title : String
  details_2025 : String
  details_2026 : String
deriving DecidableEq

structure SwotInsight where
  title : String
  content : String
deriving DecidableEq

structure SwotCtx where
  sections : List (String × List SwotItem)
  key_insights : List SwotInsight
deriving DecidableEq

/-- `row.get(k1) or row.get(k2) or ""`: first truthy of the two cells. -/
def orGet (r : Rec) (k1 k2 : String) : String :=
  let a := (recGet r k1).getD ""
  if a ≠ "" then a else (recGet r k2).getD ""

/-- Model of the swot_page grouping: rows without a Category are
dropped, "key insight" rows feed the key-insight list, every other row
joins its category's section in an insertion-ordered dict. -/
def swot_page (o : Option Table) : SwotCtx :=
  (dfOf o).rows.foldl (fun acc r =>
    let category := pyStrip ((recGet r "Category").getD "")
    let pointId := (recGet r "Point_ID").getD ""
    let keyItem := orGet r "Key_Item" "Key Item"
    let insight2025 := orGet r "2025" "2025 Insight"
    let strategy2026 := orGet r "2026" "2026 Strategy"
    let item : SwotItem :=
      { idv := pointId, title := keyItem,
        details_2025 := insight2025, details_2026 := strategy2026 }
    let ins : SwotInsight :=
      { title := keyItem,
        content := if insight2025 ≠ "" then insight2025
          else if strategy2026 ≠ "" then strategy2026 else pointId }
    if category = "" then acc
    else if lowerStr category = "key insight" then
      { acc with key_insights := acc.key_insights ++ [ins] }
    else
      { acc with sections := addToGroup acc.sections category item })
    { sections := [], key_insights := [] }

/-! ## app.cost_per_x -/

/-- The ordered header-mapping rules of cost_per_x. -/
def renameCostCol (c : String) : String :=
  let lc := lowerStr c
  if containsSub lc "cost per x" then "Cost per X"
  else if strStarts lc "facts" then "Facts"
  else if strStarts lc "why" then "Why?"
  else if containsSub lc "what to improve" || containsSub lc "improve" then
    "What to Improve More?"
  else c

/-- Newline normalization of the three free-text columns. -/
def normNewlines (s : String) : String :=
  strReplace (strReplace s (String.mk [Char.ofNat 13, Char.ofNat 10]) (String.mk [Char.ofNat 10]))
    (String.mk [Char.ofNat 13]) (String.mk [Char.ofNat 10])

/-- The canonical cost_per_x columns. -/
def costCols : List String := ["Cost per X", "Facts", "Why?", "What to Improve More?"]

/-- Model of app.cost_per_x's row construction: header cleanup, probable
header renaming, synthesis of missing canonical columns, newline
normalization of the text columns, selection of the four canonical
columns. -/
def cost_per_x (o : Option Table) : List Rec :=
  let df := dfOf o
  if df.isEmptyT then []
  else
    let t := costCols.foldl ensureCol (renameCols (fun c => renameCostCol (cleanHeader c)) df)
    t.rows.map (fun r => costCols.map (fun c =>
      let v := (recGet r c).getD ""
      (c, if c = "Cost per X" then v else normNewlines v)))

/-! ## app.okr_page -/

/-- Model of Python round(x, 1): round half to even at one decimal
(stated at the rational level; Python rounds the nearest binary double,
which agrees away from representation-edge ties). -/
def pyRound1 (q : ℚ) : ℚ :=
  let t := qmul q (qofNat 10)
  let f := qfloor t
  let diff := qsub t (qofInt f)
  let n : ℤ :=
    if diff < Rat.divInt 1 2 then f
    else if Rat.divInt 1 2 < diff then f + 1
    else if f % 2 = 0 then f else f + 1
  qdiv (qofInt n) (qofNat 10)

/-- Python round(x, 1) on a float value: NaN and infinities return
themselves (CPython's double_round returns non-finite x unchanged when
ndigits is given), finite values round per pyRound1. -/
def pfRound1 : PFloat → PFloat
  | PFloat.num q => PFloat.num (pyRound1 q)
  | PFloat.nan => PFloat.nan
  | PFloat.inf s => PFloat.inf s

/-- The cleaned score of one OKR row: a missing or None cell and the
empty string are skipped (`v in (None, "")`), then "%" is removed, the
text stripped and handed to the FULL float() grammar — so "nan", "inf"
and exponent forms succeed and are included, only a float() ValueError
is skipped — and the parsed value is scaled by 100 unconditionally
("treat sheet values like 0.7 as 70%"), with no magnitude test. A
blank sheet cell that pandas surfaces as float NaN reaches this code
as str(nan) = "nan" and is therefore included, not skipped. -/
def okrScore (r : Rec) : Option PFloat :=
  match recGet r "Average" with
  | none => none
  | some v =>
    if v = "" then none
    else
      match pyFloatFull (pyStrip (strReplace v "%" "")) with
      | some q => some (pfMul100 q)
      | none => none

/-- Model of the compute_avg closure of app.okr_page: sum starts at 0,
divides by the count and rounds to one decimal; a NaN score poisons
the whole average (sum propagates NaN), and only an empty value list
yields None. -/
def compute_avg (rows : List Rec) : Option PFloat :=
  let values := rows.filterMap okrScore
  if values.isEmpty then none
  else some (pfRound1 (pfDivNat (values.foldl pfAdd (PFloat.num 0)) values.length))

/-- Lookup of a group's items (defaultdict read without insertion). -/
def groupGet {α : Type} (gs : List (String × List α)) (k : String) : List α :=
  match gs.find? (fun p => decide (p.1 = k)) with
  | some p => p.2
  | none => []

structure OkrObjective where
  objective : String
  items_2025 : List Rec
  items_2026 : List Rec
deriving DecidableEq

structure OkrTeam where
  team : String
  objectives : List OkrObjective
  avg_2025 : Option PFloat
  avg_2026 : Option PFloat
deriving DecidableEq

/-- Insertion-ordered objective map: append to the 2025 side. -/
def addObj25 (gs : List (String × (List Rec × List Rec))) (k : String) (v : Rec) :
    List (String × (List Rec × List Rec)) :=
  match gs with
  | [] => [(k, ([v], []))]
  | (k', vs) :: rest =>
    if k' = k then (k', (vs.1 ++ [v], vs.2)) :: rest else (k', vs) :: addObj25 rest k v

/-- Insertion-ordered objective map: append to the 2026 side. -/
def addObj26 (gs : List (String × (List Rec × List Rec))) (k : String) (v : Rec) :
    List (String × (List Rec × List Rec)) :=
  match gs with
  | [] => [(k, ([], [v]))]
  | (k', vs) :: rest =>
    if k' = k then (k', (vs.1, vs.2 ++ [v])) :: rest else (k', vs) :: addObj26 rest k v

/-- The team key of an OKR row. -/
def okrTeamOf (r : Rec) : String := pyStrip (recGetD r "Functional POVs" "Other")

/-- The year bucket of an OKR row ("2025"/"2026" substring of the
stripped Years cell). -/
def okrYearOf (r : Rec) : String := pyStrip (recGetD r "Years" "")

/-- The rows of each year bucket. -/
def okrRowsOfYear (rows : List Rec) (y : String) : List Rec :=
  match y with
  | _ => rows

/-- 2025 rows: Years contains "2025". -/
def okr2025 (rows : List Rec) : List Rec :=
  rows.filter (fun r => containsSub (okrYearOf r) "2025")

/-- 2026 rows: Years contains "2026" and not "2025" (elif). -/
def okr2026 (rows : List Rec) : List Rec :=
  rows.filter (fun r =>
    !containsSub (okrYearOf r) "2025" && containsSub (okrYearOf r) "2026")

/-- The sorted team list of okr_page: sorted(set(keys25) | set(keys26)). -/
def okrAllTeams (teams25 teams26 : List (String × List Rec)) : List String :=
  sortStrs (firstSeen (groupKeys teams25 ++ groupKeys teams26))

/-- Model of app.okr_page's comparison structure. Rows are split by
year, grouped by Functional POVs into insertion-ordered dicts, but the
merged team listing is explicitly sorted; objectives stay
insertion-ordered within each team. -/
def okr_page (o : Option Table) : List OkrTeam :=
  let df := dfOf o
  let rows := if df.isEmptyT then [] else df.rows
  let teams25 := (okr2025 rows).foldl (fun g r => addToGroup g (okrTeamOf r) r) []
  let teams26 := (okr2026 rows).foldl (fun g r => addToGroup g (okrTeamOf r) r) []
  (okrAllTeams teams25 teams26).map (fun team =>
    let items25 := groupGet teams25 team
    let items26 := groupGet teams26 team
    let objMap :=
      items26.foldl (fun g r => addObj26 g (recGetD r "Objective" "No Objective") r)
        (items25.foldl (fun g r => addObj25 g (recGetD r "Objective" "No Objective") r) [])
    { team := team,
      objectives := objMap.map (fun p =>
        { objective := p.1, items_2025 := p.2.1, items_2026 := p.2.2 }),
      avg_2025 := compute_avg items25,
      avg_2026 := compute_avg items26 })

/-! ## app.split_operations and operation_health_page -/

structure OpsCtx where
  grouped_ops : List (String × List Rec)
  insights : List Rec
  status_counter : List (String × ℕ)
deriving DecidableEq

/-- Model of app.split_operations: "insight" rows split off, the rest
grouped by Funnel Stage (default "Unassigned"), statuses counted. -/
def split_operations (rows : List Rec) : OpsCtx :=
  rows.foldl (fun acc r =>
    let stage := pyStrip (recGetD r "Funnel Stage" "")
    let status := pyStrip (recGetD r "Status" "")
    if lowerStr stage = "insight" then { acc with insights := acc.insights ++ [r] }
    else
      { acc with
        grouped_ops := addToGroup acc.grouped_ops
          (if stage = "" then "Unassigned" else stage) r,
        status_counter := if status ≠ "" then bumpCounter acc.status_counter status
          else acc.status_counter })
    { grouped_ops := [], insights := [], status_counter := [] }

/-- Model of app.operation_health_page's context construction. -/
def operation_health_page (o : Option Table) : OpsCtx :=
  let df := dfOf o
  if df.isEmptyT then { grouped_ops := [], insights := [], status_counter := [] }
  else split_operations ((renameCols pyStrip df).rows)

/-! ## app.load_fna_performance_from_excel -/

/-- Opening brace char (written by code point). -/
def lbrace : Char := Char.ofNat 123

/-- Closing brace char. -/
def rbrace : Char := Char.ofNat 125

/-- The pattern head of the \mathbf wrapper. -/
def mathbfPat : List Char := '\\' :: "mathbf".data ++ [lbrace]

/-- Fuel-based scanner for the \mathbf unwrap (the fuel, set to the list
length at the top call, never runs out: every step consumes at least one
character and one unit of fuel). -/
def unwrapMathbfAux : ℕ → List Char → List Char
  | 0, l => l
  | _ + 1, [] => []
  | f + 1, c :: cs =>
    if leadsWith mathbfPat (c :: cs) then
      let rest := (c :: cs).drop 8
      let inner := rest.takeWhile (fun x => x ≠ rbrace)
      match rest.dropWhile (fun x => x ≠ rbrace) with
      | [] => c :: unwrapMathbfAux f cs
      | _ :: tl => inner ++ unwrapMathbfAux f tl
    else c :: unwrapMathbfAux f cs

/-- Model of re.sub(r"\\mathbf\{([^}]*)\}", r"\1", s): unwrap each
brace-closed \mathbf group, leaving unclosed ones untouched. -/
def unwrapMathbf (cs : List Char) : List Char := unwrapMathbfAux cs.length cs

/-- Fuel-based scanner for the non-greedy dollar-span unwrap. -/
def unwrapDollarAux : ℕ → List Char → List Char
  | 0, l => l
  | _ + 1, [] => []
  | f + 1, c :: cs =>
    if c = '$' then
      let inner := cs.takeWhile (fun x => x ≠ '$' ∧ x ≠ Char.ofNat 10)
      match cs.dropWhile (fun x => x ≠ '$' ∧ x ≠ Char.ofNat 10) with
      | x :: tl =>
        if x = '$' then inner ++ unwrapDollarAux f tl else c :: unwrapDollarAux f cs
      | [] => c :: unwrapDollarAux f cs
    else c :: unwrapDollarAux f cs

/-- Model of re.sub(r"\$(.*?)\$", r"\1", s): non-greedy dollar-span
unwrapping; `.` does not cross a newline, so a span interrupted by a
newline (or never closed) is left untouched. -/
def unwrapDollar (cs : List Char) : List Char := unwrapDollarAux cs.length cs

/-- The LaTeX cleanup applied to every string cell of the FNA rows:
\mathbf unwrap, \rightarrow to the arrow char, $...$ unwrap, strip. -/
def cleanLatexCell (s : String) : String :=
  pyStrip (String.mk (unwrapDollar
    (replaceAll ('\\' :: "rightarrow".data) "→".data (unwrapMathbf s.data))))

/-- The header cleanup of the FNA loader (strip, then NBSP to space). -/
def cleanFnaHeader (c : String) : String := strReplace (pyStrip c) nbspS " "

/-- The category key of one FNA row. -/
def fnaCategory (r : Rec) : String :=
  let c0 := pyStrip (recGetD r "KPI Category" "General")
  if c0 = "" then "General" else c0

/-- Model of app.load_fna_performance_from_excel: a read failure or an
empty frame yields ([], empty counter); otherwise categories are counted
per row (insertion-ordered) and every string cell is LaTeX-cleaned. -/
def load_fna_performance (o : Option Table) : List Rec × List (String × ℕ) :=
  match o with
  | none => ([], [])
  | some df =>
    if df.isEmptyT then ([], [])
    else
      let t := renameCols cleanFnaHeader df
      let counter := t.rows.foldl (fun cnt r => bumpCounter cnt (fnaCategory r)) []
      (t.rows.map (fun r => r.map (fun p => (p.1, cleanLatexCell p.2))), counter)

/-! ## app.bob_page

The helpers read_local_excel_sheet, format_number, format_percent and
parse_review_text are called by bob_page but are defined nowhere under
src/; they are modelled from the spec as indicated on each. -/

/-- Modelled from the spec: format_number is absent from src/; §4.1's
formatInt: zero decimals, thousands-grouped; it is only ever applied to
already-numeric values here, so the "0" fallback is unreachable. -/
def format_number (q : ℚ) : String := fmtIntVal q

/-- Modelled from the spec: format_percent is absent from src/; §4.1's
formatPercent: multiply by 100 when the magnitude is at most 1, one
decimal and a trailing %, em dash on null. -/
def format_percent (v : Option ℚ) : String :=
  match v with
  | none => "—"
  | some q => fmtPctVal (if qabs q ≤ 1 then qmul q (qofNat 100) else q)

/-- Split a char list on a separator char. -/
def splitOnChar (c : Char) : List Char → List (List Char)
  | [] => [[]]
  | x :: xs =>
    let r := splitOnChar c xs
    if x = c then [] :: r else (x :: r.headD []) :: r.tail

/-- Modelled from the spec: parse_review_text is absent from src/ and the
spec fixes only that it turns one review cell into display content;
modelled as the cell's non-blank stripped lines. -/
def parse_review_text (s : String) : List String :=
  ((splitOnChar (Char.ofNat 10) s.data).map (fun l => pyStrip (String.mk l))).filter
    (fun x => decide (x ≠ ""))

/-- The bob_column_map lookup (exact match on the stripped, lowered
header). -/
def bobRename (c : String) : String :=
  let k := lowerStr (pyStrip c)
  match ([("months", "Months"), ("month", "Months"), ("bob order", "BOB Order"),
          ("bob", "BOB Order"), ("boborder", "BOB Order"), ("self order", "Self Order"),
          ("self", "Self Order"), ("grand total", "Grand Total"), ("total", "Grand Total"),
          ("cs%", "CS%"), ("cs %", "CS%"),
          ("cs percentage", "CS%")].find? (fun p => decide (p.1 = k))) with
  | some p => p.2
  | none => c

structure BobRow where
  months : String
  bob_order : String
  self_order : String
  grand_total : String
  cs : String
deriving DecidableEq

structure BobChart where
  months : List String
  bob : List ℚ
  self_vals : List ℚ
  cs : List ℚ
deriving DecidableEq

structure BobReview where
  worked : List String
  scale : List String
  not_work : List String
  lesson : List String
  next_goal : List String
deriving DecidableEq

structure BobSummary where
  total_bob : String
  total_self : String
  total_grand : String
  avg_cs : String
  best_month : String
  best_month_value : String
deriving DecidableEq

structure BobCtx where
  rows : List BobRow
  reviews : List BobReview
  summary : BobSummary
  chart_data : BobChart
deriving DecidableEq

/-- The per-row loop state of bob_page. -/
structure BobAcc where
  rows : List BobRow
  chart : BobChart
  tBob : ℚ
  tSelf : ℚ
  tGrand : ℚ
  csList : List ℚ
  bestLabel : String
  bestValue : ℚ
deriving DecidableEq

/-- One iteration of the bob_page row loop. -/
def bobStep (acc : BobAcc) (r : Rec) : BobAcc :=
  let month := pyStrip (recGetD r "Months" "")
  let bobV := (parse_number (recGet r "BOB Order")).getD 0
  let selfV := (parse_number (recGet r "Self Order")).getD 0
  let grandV := (parse_number (recGet r "Grand Total")).getD 0
  let csV := parse_number (recGet r "CS%")
  { rows := acc.rows ++
      [{ months := month, bob_order := format_number bobV,
         self_order := format_number selfV, grand_total := format_number grandV,
         cs := format_percent csV }],
    chart :=
      { months := acc.chart.months ++ [month],
        bob := acc.chart.bob ++ [bobV],
        self_vals := acc.chart.self_vals ++ [selfV],
        cs := acc.chart.cs ++
          [match csV with
           | some v => if qabs v ≤ 1 then qmul v (qofNat 100) else v
           | none => 0] },
    tBob := qadd acc.tBob bobV,
    tSelf := qadd acc.tSelf selfV,
    tGrand := qadd acc.tGrand grandV,
    csList := acc.csList ++
      (match csV with
       | some v => [if qabs v ≤ 1 then v else qdiv v (qofNat 100)]
       | none => []),
    bestLabel := if acc.bestValue < grandV then month else acc.bestLabel,
    bestValue := if acc.bestValue < grandV then grandV else acc.bestValue }

/-- One review row: the five section keys filled from the matching
columns (later duplicate columns overwrite). -/
def bobReviewOf (cols : List String) (r : Rec) : BobReview :=
  cols.foldl (fun e col =>
    let k := lowerStr (pyStrip col)
    let v := parse_review_text (recGetD r col "")
    if k = "what worked?" then { e with worked := v }
    else if k = "what needs to scale?" then { e with scale := v }
    else if k = "what did not work?" then { e with not_work := v }
    else if k = "what is the lesson learned?" then { e with lesson := v }
    else if k = "what is the next goal for bob?" then { e with next_goal := v }
    else e)
    { worked := [], scale := [], not_work := [], lesson := [], next_goal := [] }

/-- Is any of the five review sections non-empty? -/
def bobReviewNonEmpty (e : BobReview) : Bool :=
  !e.worked.isEmpty || !e.scale.isEmpty || !e.not_work.isEmpty ||
    !e.lesson.isEmpty || !e.next_goal.isEmpty

/-- Model of app.bob_page.  The two loads (BOB and BOB_review) are the
spec's table source: a table, or an empty table on failure (`none`).
Headers are stripped, the BOB header variants canonicalized, per-row
values parsed with the `or 0` coercion, CS% values chart-scaled when at
most 1 in magnitude, and the best month keeps the first strict maximum
of Grand Total against a "(-, 0)" initial. -/
def bob_page (oBob oReview : Option Table) : BobCtx :=
  let bobDf0 := dfOf oBob
  let reviewDf := renameCols pyStrip (dfOf oReview)
  let bobDf := if bobDf0.isEmptyT then bobDf0
    else renameCols (fun c => bobRename (pyStrip c)) bobDf0
  let acc :=
    if bobDf.isEmptyT then
      { rows := [], chart := { months := [], bob := [], self_vals := [], cs := [] },
        tBob := 0, tSelf := 0, tGrand := 0, csList := [],
        bestLabel := "-", bestValue := 0 }
    else
      bobDf.rows.foldl bobStep
        { rows := [], chart := { months := [], bob := [], self_vals := [], cs := [] },
          tBob := 0, tSelf := 0, tGrand := 0, csList := [],
          bestLabel := "-", bestValue := 0 }
  let reviews :=
    if reviewDf.isEmptyT then []
    else (reviewDf.rows.map (bobReviewOf reviewDf.cols)).filter bobReviewNonEmpty
  { rows := acc.rows,
    reviews := reviews,
    summary :=
      { total_bob := format_number acc.tBob,
        total_self := format_number acc.tSelf,
        total_grand := format_number acc.tGrand,
        avg_cs := format_percent
          (if acc.csList.isEmpty then none
           else some (qdiv (qsum acc.csList) (qofNat acc.csList.length))),
        best_month := acc.bestLabel,
        best_month_value := format_number acc.bestValue },
    chart_data := acc.chart }

/-! ## generate_standalone: target, strategy and roadmap builders -/

structure STargetCtx where
  active_tab : String
  target_columns : List String
  target_rows : List Rec
  target_insight : String
deriving DecidableEq

/-- Model of generate_standalone.build_ecom_target_context: same header
cleanup and row formatting as the Flask twin, but the insight extraction
has no long-prose fallback — only the "insight" keyword rule. -/
def standalone_build_ecom_target_context (t0 : Table) : STargetCtx :=
  if t0.isEmptyT then
    { active_tab := "target", target_columns := [], target_rows := [], target_insight := "" }
  else
    let t := renameCols cleanHeader t0
    let fc := t.cols.headD ""
    { active_tab := "target",
      target_columns := t.cols,
      target_rows := t.rows.map (formatTargetRow t.cols),
      target_insight :=
        match t.rows.find? (rowHasInsight fc) with
        | some r => insightFromRow t.cols r
        | none => "" }

structure SPlanEntry where
  action : String
  description : String
  quarter : String
  phase : String
  photos : List String
deriving DecidableEq

structure SStrategyCtx where
  goal_text : String
  pillars : List (String × List SPlanEntry)
deriving DecidableEq

/-- Model of generate_standalone.get_strategy_plan_context: goal text is
the first cell of the first row; rows without a Pillar value are
dropped; photos split on commas from the Photos cell. -/
def standalone_get_strategy_plan_context (t0 : Table) : SStrategyCtx :=
  if t0.isEmptyT then
    { goal_text := "No strategy plan data available.", pillars := [] }
  else
    let t := renameCols pyStrip t0
    let goal := if t.cols.isEmpty then "No goal defined"
      else ((t.rows.headD []).headD ("", "")).2
    { goal_text := goal,
      pillars := t.rows.foldl (fun g r =>
        let pillar := pyStrip (recGetD r "Pillar" "")
        if pillar = "" then g
        else
          let photos := match recGet r "Photos" with
            | some pv => ((splitOnChar ',' pv.data).map (fun u => pyStrip (String.mk u))).filter
                (fun u => decide (u ≠ ""))
            | none => []
          addToGroup g pillar
            { action := pyStrip (recGetD r "Action" ""),
              description := pyStrip (recGetD r "Description" ""),
              quarter := pyStrip (recGetD r "Quarter" ""),
              phase := pyStrip (recGetD r "Phase" ""),
              photos := photos }) [] }

/-- Model of generate_standalone.get_roadmap_context: grouped by the
stripped Quarter cell (empty dropped), quarter_order sorted. -/
def standalone_get_roadmap_context (t0 : Table) : RoadmapCtx :=
  if t0.isEmptyT then { quarters := [], quarter_order := [] }
  else
    let t := renameCols pyStrip t0
    let quarters := t.rows.foldl (fun g r =>
      let q := pyStrip (recGetD r "Quarter" "")
      if q = "" then g
      else addToGroup g q
        { activity_id := pyStrip (recGetD r "Activity_ID" ""),
          topic := pyStrip (recGetD r "Topic" ""),
          owner := pyStrip (recGetD r "Owner" "") }) []
    { quarters := quarters, quarter_order := sortStrs (groupKeys quarters) }

/-! ## Concrete instances used by the claims -/

/-- The spec's comparison example: rows ("Jan",100,150), ("Feb",0,50),
("Dec",200,0). -/
def exCompTable : Table :=
  compTable [compRow3 "Jan" "100" "150", compRow3 "Feb" "0" "50", compRow3 "Dec" "200" "0"]

/-- An OKR table whose Functional POVs appear in input order B, A. -/
def exOkrTable : Table :=
  ⟨["Years", "Functional POVs", "Objective", "Average"],
   [[("Years", "2025"), ("Functional POVs", "B"), ("Objective", "O1"), ("Average", "0.7")],
    [("Years", "2025"), ("Functional POVs", "A"), ("Objective", "O2"), ("Average", "0.5")]]⟩

/-- A strategy-plan table whose pillar categories appear in input order
B, A, B, C. -/
def exPlanTable : Table :=
  ⟨["Strategy Pillar", "Action"],
   [[("Strategy Pillar", "B"), ("Action", "a1")],
    [("Strategy Pillar", "A"), ("Action", "a2")],
    [("Strategy Pillar", "B"), ("Action", "a3")],
    [("Strategy Pillar", "C"), ("Action", "a4")]]⟩

/-- A SWOT table whose categories appear in input order B, A, B, C. -/
def exSwotTable : Table :=
  ⟨["Category", "Key_Item"],
   [[("Category", "B"), ("Key_Item", "k1")],
    [("Category", "A"), ("Key_Item", "k2")],
    [("Category", "B"), ("Key_Item", "k3")],
    [("Category", "C"), ("Key_Item", "k4")]]⟩

/-- The empty frame. -/
def emptyTable : Table := ⟨[], []⟩

/-! # Theorems

## Bridge lemmas: the kernel-computable arithmetic agrees with Mathlib's -/

theorem qofInt_eq (n : ℤ) : qofInt n = (n : ℚ) := by
  rw [qofInt, Rat.divInt_one]

theorem qofNat_eq (n : ℕ) : qofNat n = (n : ℚ) := by
  rw [qofNat, Rat.divInt_one]
  norm_cast

theorem qadd_eq (a b : ℚ) : qadd a b = a + b := by
  have ha : ((a.den : ℚ)) ≠ 0 := by
    exact_mod_cast a.den_nz
  have hb : ((b.den : ℚ)) ≠ 0 := by
    exact_mod_cast b.den_nz
  rw [qadd, Rat.divInt_eq_div]
  push_cast
  rw [eq_comm]
  conv_lhs => rw [← Rat.num_div_den a, ← Rat.num_div_den b]
  field_simp

theorem qmul_eq (a b : ℚ) : qmul a b = a * b := by
  have ha : ((a.den : ℚ)) ≠ 0 := by
    exact_mod_cast a.den_nz
  have hb : ((b.den : ℚ)) ≠ 0 := by
    exact_mod_cast b.den_nz
  rw [qmul, Rat.divInt_eq_div]
  push_cast
  rw [eq_comm]
  conv_lhs => rw [← Rat.num_div_den a, ← Rat.num_div_den b]
  field_simp

theorem qneg_eq (a : ℚ) : qneg a = -a := by
  rw [qneg, ← Rat.neg_divInt, Rat.num_divInt_den]

theorem qsub_eq (a b : ℚ) : qsub a b = a - b := by
  rw [qsub, qadd_eq, qneg_eq, sub_eq_add_neg]

theorem qdiv_eq (a b : ℚ) : qdiv a b = a / b := by
  by_cases hb : b = 0
  · subst hb
    rw [qdiv, div_zero]
    have : (0 : ℚ).num = 0 := rfl
    rw [this, mul_zero, Rat.divInt_zero]
  · have hbn : b.num ≠ 0 := Rat.num_ne_zero.mpr hb
    have ha : ((a.den : ℚ)) ≠ 0 := by
      exact_mod_cast a.den_nz
    have hbd : ((b.den : ℚ)) ≠ 0 := by
      exact_mod_cast b.den_nz
    have hbn' : ((b.num : ℚ)) ≠ 0 := by
      exact_mod_cast hbn
    rw [qdiv, Rat.divInt_eq_div]
    push_cast
    rw [eq_comm]
    conv_lhs => rw [← Rat.num_div_den a, ← Rat.num_div_den b]
    field_simp

theorem qfloor_eq (a : ℚ) : qfloor a = ⌊a⌋ := by
  rw [qfloor, Rat.floor_def]

theorem qabs_eq (a : ℚ) : qabs a = |a| := by
  rw [qabs]
  by_cases h : a < 0
  · rw [if_pos h, qneg_eq, abs_of_neg h]
  · rw [if_neg h, abs_of_nonneg (le_of_not_lt h)]

theorem qsum_eq (l : List ℚ) : qsum l = l.sum := by
  have h : ∀ (init : ℚ), l.foldl qadd init = init + l.sum := by
    induction l with
    | nil => intro init; simp [List.foldl]
    | cons x xs ih =>
        intro init
        simp only [List.foldl, List.sum_cons, qadd_eq]
        rw [ih]
        ring
  rw [qsum, h, zero_add]

theorem natDigitsAux_eq : ∀ (f n : ℕ), n ≤ f → natDigitsAux f n = Nat.digits 10 n := by
  intro f
  induction f with
  | zero =>
      intro n hn
      interval_cases n
      simp [natDigitsAux]
  | succ f ih =>
      intro n hn
      match n with
      | 0 => simp [natDigitsAux]
      | m + 1 =>
          have hdiv : (m + 1) / 10 ≤ f := by
            have h1 : (m + 1) / 10 < m + 1 := Nat.div_lt_self (Nat.succ_pos m) (by norm_num)
            omega
          rw [natDigitsAux, ih _ hdiv, Nat.digits_def' (by norm_num : 1 < 10) (Nat.succ_pos m)]

theorem natDigitsLE_eq (n : ℕ) : natDigitsLE n = Nat.digits 10 n :=
  natDigitsAux_eq n n le_rfl

/-! ## Claim C3 -/

/-- Claim C3, code evaluation at the failing input: the regex character
class of clean_number is `[BM]`, so the captured unit of "180 L" is
empty and the result is the unscaled 180, not the 18,000,000 promised by
the spec's L-scaling rule (the function's own docstring and its dead
`unit == 'L'` branch show the L rule was the intent); the B/M scaling,
the no-suffix passthrough and the empty-string passthrough behave as
specified. -/
theorem c3_clean_number_eval :
    cleanNumber "180 L" = some (Sum.inr 180) ∧
    (180 : ℚ) ≠ 18000000 ∧
    cleanNumber "3.7 B" = some (Sum.inr 3700000000) ∧
    cleanNumber "2.5 M" = some (Sum.inr 2500000) ∧
    cleanNumber "42" = some (Sum.inr 42) ∧
    cleanNumber "" = some (Sum.inl "") :=
  ⟨by decide, by decide, by decide, by decide, by decide, by decide⟩

/-! ## Claim C1 -/

/-- Claim C1: for every report builder, both a failed source load
(`none`, the except branch) and an empty source table produce the
well-formed empty ReportContext of that builder — empty row lists and
the zero/dash fallback aggregates — and, the builders being total
functions of the load outcome, no exception escapes.  The bob_page
formatting helpers are spec-modelled (they are absent from src/). -/
theorem c1_degrade_never_crash :
    (build_ecom_target_context none = build_ecom_target_context (some emptyTable) ∧
     build_ecom_target_context none =
       { active_tab := "target", target_columns := [], target_rows := [],
         target_insight := "", comp_rows := [], comp_summary := none,
         title := "E-commerce Performance",
         description := "2026 target plan across the funnel." }) ∧
    (build_ecom_comparison_context none = build_ecom_comparison_context (some emptyTable) ∧
     build_ecom_comparison_context none = build_ecom_comparison_context (some (compTable [])) ∧
     build_ecom_comparison_context none =
       { active_tab := "comparison", target_columns := [], target_rows := [],
         target_insight := "", comp_rows := [],
         comp_summary := some
           { total_2024 := "0", total_2025 := "0", avg_2024 := "0", avg_2025 := "0",
             max_month := "-", max_value := "0", min_month := "-", min_value := "0" },
         title := "E-commerce Performance",
         description := "2024 vs 2025 performance snapshot." }) ∧
    (get_strategy_plan_context none = get_strategy_plan_context (some emptyTable) ∧
     get_strategy_plan_context none =
       { goal_text := "2026 Strategy Plan", pillars := [], title := "2026 Strategy Plan" }) ∧
    (get_roadmap_context none = get_roadmap_context (some emptyTable) ∧
     get_roadmap_context none = { quarters := [], quarter_order := [] }) ∧
    (swot_page none = swot_page (some emptyTable) ∧
     swot_page none = { sections := [], key_insights := [] }) ∧
    (cost_per_x none = cost_per_x (some emptyTable) ∧ cost_per_x none = []) ∧
    (okr_page none = okr_page (some emptyTable) ∧ okr_page none = []) ∧
    (operation_health_page none = operation_health_page (some emptyTable) ∧
     operation_health_page none =
       { grouped_ops := [], insights := [], status_counter := [] }) ∧
    (load_fna_performance none = load_fna_performance (some emptyTable) ∧
     load_fna_performance none = ([], [])) ∧
    (bob_page none none = bob_page (some emptyTable) (some emptyTable) ∧
     bob_page none none =
       { rows := [], reviews := [],
         summary := { total_bob := "0", total_self := "0", total_grand := "0",
                      avg_cs := "—", best_month := "-", best_month_value := "0" },
         chart_data := { months := [], bob := [], self_vals := [], cs := [] } }) ∧
    (standalone_build_ecom_target_context emptyTable =
       { active_tab := "target", target_columns := [], target_rows := [],
         target_insight := "" }) ∧
    (standalone_build_ecom_comparison_context emptyTable =
       { active_tab := "comparison", comp_rows := [], comp_summary := none }) ∧
    (standalone_get_strategy_plan_context emptyTable =
       { goal_text := "No strategy plan data available.", pillars := [] }) ∧
    (standalone_get_roadmap_context emptyTable = { quarters := [], quarter_order := [] }) :=
  ⟨⟨by decide, by decide⟩, ⟨by decide, by decide, by decide⟩, ⟨by decide, by decide⟩,
   ⟨by decide, by decide⟩, ⟨by decide, by decide⟩, ⟨by decide, by decide⟩,
   ⟨by decide, by decide⟩, ⟨by decide, by decide⟩, ⟨by decide, by decide⟩,
   ⟨by decide, by decide⟩, by decide, by decide, by decide, by decide⟩

/-! ## Claim C10 -/

/-- Claim C10: in the Flask comparison builder, a "2024" or "2025" cell
that is missing or fails to parse is coerced to 0 (`parse_number(...) or
0`) and is indistinguishable from a genuine zero: the parsed value is 0
(so the row contributes nothing to the running total), the cell is
rendered "0", the whole record equals the record of the same row with a
literal "0" cell, and (2024 side) delta_pct is null exactly as for a
genuine zero. -/
theorem c10_unparseable_cell_is_zero (r : Rec) :
    (parse_number (recGet r "2024") = none →
      (mkCompEntry r).v2024 = 0 ∧
      (mkCompEntry r).fmt2024 = "0" ∧
      (mkCompEntry r).deltaPct = none ∧
      (mkCompEntry r).deltaPctFmt = "—" ∧
      (∀ l : List ℚ, qsum (l ++ [(mkCompEntry r).v2024]) = qsum l) ∧
      ∀ r' : Rec, recGet r' "2024" = some "0" →
        recGet r' "Months" = recGet r "Months" → recGet r' "2025" = recGet r "2025" →
        mkCompEntry r' = mkCompEntry r) ∧
    (parse_number (recGet r "2025") = none →
      (mkCompEntry r).v2025 = 0 ∧
      (mkCompEntry r).fmt2025 = "0" ∧
      (∀ l : List ℚ, qsum (l ++ [(mkCompEntry r).v2025]) = qsum l) ∧
      ∀ r' : Rec, recGet r' "2025" = some "0" →
        recGet r' "Months" = recGet r "Months" → recGet r' "2024" = recGet r "2024" →
        mkCompEntry r' = mkCompEntry r) := by
  have h0 : parse_number (some "0") = some 0 := by decide
  have hfmt0 : fmtIntVal 0 = "0" := by decide
  have hq : ∀ (l : List ℚ), qsum (l ++ [(0 : ℚ)]) = qsum l := by
    intro l
    rw [qsum_eq, qsum_eq, List.sum_append]
    simp
  constructor
  · intro h
    refine ⟨?_, ?_, ?_, ?_, ?_, ?_⟩
    · simp [mkCompEntry, h]
    · simp [mkCompEntry, h, hfmt0]
    · simp [mkCompEntry, h]
    · simp [mkCompEntry, h]
    · intro l
      have hv : (mkCompEntry r).v2024 = 0 := by simp [mkCompEntry, h]
      rw [hv]
      exact hq l
    · intro r' h24 hm h25
      simp [mkCompEntry, recGetD, h, h24, hm, h25, h0]
  · intro h
    refine ⟨?_, ?_, ?_, ?_⟩
    · simp [mkCompEntry, h]
    · simp [mkCompEntry, h, hfmt0]
    · intro l
      have hv : (mkCompEntry r).v2025 = 0 := by simp [mkCompEntry, h]
      rw [hv]
      exact hq l
    · intro r' h25 hm h24
      simp [mkCompEntry, recGetD, h, h25, hm, h24, h0]

/-- Witness for C10 at a concrete record: the 2024 cell "n/a" fails to
parse, and the resulting entry equals the entry of the same row with a
"0" cell. -/
theorem c10_unparseable_cell_is_zero_witness :
    parse_number (recGet (compRow3 "Jan" "n/a" "150") "2024") = none ∧
    (mkCompEntry (compRow3 "Jan" "n/a" "150")).v2024 = 0 ∧
    (mkCompEntry (compRow3 "Jan" "n/a" "150")).fmt2024 = "0" ∧
    mkCompEntry (compRow3 "Jan" "0" "150") = mkCompEntry (compRow3 "Jan" "n/a" "150") := by
  have h : parse_number (recGet (compRow3 "Jan" "n/a" "150") "2024") = none := by decide
  have main := (c10_unparseable_cell_is_zero (compRow3 "Jan" "n/a" "150")).1 h
  exact ⟨h, main.1, main.2.1, main.2.2.2.2.2 _ (by decide) (by decide) (by decide)⟩

/-! ## Claim C2 -/

theorem comparisonRecords_compTable (rows : List Rec) :
    comparisonRecords (compTable rows) = (rows.map stripRecKeys).map mkCompEntry := by
  cases rows with
  | nil => rfl
  | cons r rs => rfl

/-- Claim C2: the two coexisting total policies.  The Flask builder adds
every record's 2024 and 2025 values to the running totals
unconditionally (appending any row adds exactly its parsed values); the
standalone builder accumulates a row only when both sides are positive,
so in particular a row with a zero side contributes nothing ("only when
both values are nonzero"); on the example rows ("Jan",100,150),
("Feb",0,50), ("Dec",200,0) the unconditional policy totals are
300 and 200. -/
theorem c2_two_total_policies :
    (∀ (rs : List Rec) (r : Rec),
      qsum ((comparisonRecords (compTable (rs ++ [r]))).map (fun e => e.v2024)) =
        qsum ((comparisonRecords (compTable rs)).map (fun e => e.v2024)) +
          (mkCompEntry (stripRecKeys r)).v2024 ∧
      qsum ((comparisonRecords (compTable (rs ++ [r]))).map (fun e => e.v2025)) =
        qsum ((comparisonRecords (compTable rs)).map (fun e => e.v2025)) +
          (mkCompEntry (stripRecKeys r)).v2025) ∧
    (∀ (entries : List SCompEntry) (e : SCompEntry), e.v2024 = 0 ∨ e.v2025 = 0 →
      sTotals (entries ++ [e]) = sTotals entries) ∧
    (∀ (entries : List SCompEntry) (e : SCompEntry), 0 < e.v2024 → 0 < e.v2025 →
      sTotals (entries ++ [e]) =
        (qadd (sTotals entries).1 e.v2024, qadd (sTotals entries).2.1 e.v2025,
         (sTotals entries).2.2 + 1)) ∧
    qsum ((comparisonRecords exCompTable).map (fun e => e.v2024)) = 300 ∧
    qsum ((comparisonRecords exCompTable).map (fun e => e.v2025)) = 200 ∧
    ((build_ecom_comparison_context (some exCompTable)).comp_summary.map
      (fun s => (s.total_2024, s.total_2025)) = some ("300", "200")) := by
  refine ⟨?_, ?_, ?_, by decide, by decide, by decide⟩
  · intro rs r
    constructor <;>
    · rw [comparisonRecords_compTable, comparisonRecords_compTable]
      simp only [List.map_append, List.map_map, qsum_eq, List.sum_append,
        List.map_cons, List.map_nil, List.sum_cons, List.sum_nil, Function.comp]
      ring
  · intro entries e he
    rw [sTotals, sTotals, List.foldl_append]
    simp only [List.foldl]
    rw [if_neg]
    rintro ⟨h1, h2⟩
    rcases he with h | h
    · rw [h] at h1
      exact lt_irrefl 0 h1
    · rw [h] at h2
      exact lt_irrefl 0 h2
  · intro entries e h1 h2
    rw [sTotals, sTotals, List.foldl_append]
    simp only [List.foldl]
    rw [if_pos ⟨h1, h2⟩]

/-- Witness for C2: the standalone policy answers at concrete rows —
("Feb",0,50) has a zero side and contributes nothing; ("Jan",100,150)
has both sides positive and is accumulated. -/
theorem c2_two_total_policies_witness :
    sTotals [mkSCompEntry (compRow3 "Jan" "100" "150"),
             mkSCompEntry (compRow3 "Feb" "0" "50")] =
      sTotals [mkSCompEntry (compRow3 "Jan" "100" "150")] ∧
    sTotals [mkSCompEntry (compRow3 "Jan" "100" "150")] =
      (qadd (sTotals []).1 (mkSCompEntry (compRow3 "Jan" "100" "150")).v2024,
       qadd (sTotals []).2.1 (mkSCompEntry (compRow3 "Jan" "100" "150")).v2025,
       (sTotals []).2.2 + 1) := by
  constructor
  · exact c2_two_total_policies.2.1 [mkSCompEntry (compRow3 "Jan" "100" "150")]
      (mkSCompEntry (compRow3 "Feb" "0" "50")) (Or.inl (by decide))
  · exact c2_two_total_policies.2.2.1 [] (mkSCompEntry (compRow3 "Jan" "100" "150"))
      (by decide) (by decide)

/-! ## Claim C6 -/

theorem pickFirstMinBy_cons {α : Type} (g : α → ℚ) (init x : α) (xs : List α) :
    pickFirstMinBy g init (x :: xs) =
      pickFirstMinBy g (if g x < g init then x else init) xs := rfl

theorem pickFirstMinBy_le {α : Type} (g : α → ℚ) :
    ∀ (l : List α) (init : α), g (pickFirstMinBy g init l) ≤ g init := by
  intro l
  induction l with
  | nil => intro init; exact le_refl _
  | cons x xs ih =>
      intro init
      rw [pickFirstMinBy_cons]
      by_cases h : g x < g init
      · rw [if_pos h]
        exact le_trans (ih x) (le_of_lt h)
      · rw [if_neg h]
        exact ih init

/-- The first-optimum characterization of the Python min fold: the
result splits the scanned list into a strictly-greater left part and a
no-smaller right part (so ties go to the first occurrence). -/
theorem pickFirstMinBy_split {α : Type} (g : α → ℚ) :
    ∀ (l : List α) (init : α), ∃ l1 l2,
      init :: l = l1 ++ pickFirstMinBy g init l :: l2 ∧
      (∀ x ∈ l1, g (pickFirstMinBy g init l) < g x) ∧
      (∀ x ∈ l2, g (pickFirstMinBy g init l) ≤ g x) := by
  intro l
  induction l with
  | nil =>
      intro init
      exact ⟨[], [], rfl, by simp, by simp⟩
  | cons x xs ih =>
      intro init
      rw [pickFirstMinBy_cons]
      by_cases h : g x < g init
      · rw [if_pos h]
        obtain ⟨l1, l2, heq, hl1, hl2⟩ := ih x
        refine ⟨init :: l1, l2, ?_, ?_, hl2⟩
        · rw [List.cons_append, ← heq]
        · intro y hy
          rcases List.mem_cons.mp hy with hy' | hy'
          · rw [hy']
            exact lt_of_le_of_lt (pickFirstMinBy_le g xs x) h
          · exact hl1 y hy'
      · rw [if_neg h]
        push_neg at h
        obtain ⟨l1, l2, heq, hl1, hl2⟩ := ih init
        cases l1 with
        | nil =>
            have hp : init = pickFirstMinBy g init xs := by
              have := heq
              simp only [List.nil_append] at this
              exact (List.cons.injEq _ _ _ _ ▸ this).1
            have hxs : xs = l2 := by
              simp only [List.nil_append] at heq
              exact (List.cons.injEq _ _ _ _ ▸ heq).2
            refine ⟨[], x :: l2, ?_, by simp, ?_⟩
            · simp only [List.nil_append]
              rw [← hp, ← hxs]
            · intro y hy
              rcases List.mem_cons.mp hy with hy' | hy'
              · rw [hy', ← hp]
                exact h
              · exact hl2 y hy'
        | cons a l1' =>
            have ha : init = a := ((List.cons.injEq _ _ _ _).mp heq).1
            have hxs : xs = l1' ++ pickFirstMinBy g init xs :: l2 :=
              ((List.cons.injEq _ _ _ _).mp heq).2
            have hinit : g (pickFirstMinBy g init xs) < g init := by
              have := hl1 a (List.mem_cons_self a l1')
              rwa [← ha] at this
            refine ⟨init :: x :: l1', l2, ?_, ?_, hl2⟩
            · conv_lhs => rw [hxs]
              simp
            · intro y hy
              rcases List.mem_cons.mp hy with hy' | hy'
              · rw [hy']
                exact hinit
              · rcases List.mem_cons.mp hy' with hy'' | hy''
                · rw [hy'']
                  exact lt_of_lt_of_le hinit h
                · exact hl1 y (List.mem_cons_of_mem _ hy'')

/-- The dual characterization for the Python max fold. -/
theorem pickFirstMaxBy_split {α : Type} (g : α → ℚ) (l : List α) (init : α) :
    ∃ l1 l2,
      init :: l = l1 ++ pickFirstMaxBy g init l :: l2 ∧
      (∀ x ∈ l1, g x < g (pickFirstMaxBy g init l)) ∧
      (∀ x ∈ l2, g x ≤ g (pickFirstMaxBy g init l)) := by
  obtain ⟨l1, l2, heq, h1, h2⟩ := pickFirstMinBy_split (fun a => qneg (g a)) l init
  refine ⟨l1, l2, heq, ?_, ?_⟩
  · intro y hy
    have := h1 y hy
    rwa [qneg_eq, qneg_eq, neg_lt_neg_iff] at this
  · intro y hy
    have := h2 y hy
    rwa [qneg_eq, qneg_eq, neg_le_neg_iff] at this

/-- Claim C6: in the comparison summary, the best month is the record
with the maximum 2025 value, ties broken by first occurrence (every
earlier record is strictly smaller, every later one no greater), and the
worst month is the first minimum of the eligible records — those whose
month label does not case-insensitively equal "dec" or "december" —
falling back to the full record list only when that filter leaves
nothing; on the example rows the best month is "Jan" and the worst is
"Feb" (50) even though "Dec" holds the smaller value 0. -/
theorem c6_best_and_worst_month :
    (∀ (records : List CompEntry), records ≠ [] →
      ∃ best worst, compMaxMin records = (some best, some worst) ∧
        (∃ l1 l2, records = l1 ++ best :: l2 ∧
          (∀ x ∈ l1, x.v2025 < best.v2025) ∧ (∀ x ∈ l2, x.v2025 ≤ best.v2025)) ∧
        (eligibleMin records = [] →
          ∃ m1 m2, records = m1 ++ worst :: m2 ∧
            (∀ x ∈ m1, worst.v2025 < x.v2025) ∧ (∀ x ∈ m2, worst.v2025 ≤ x.v2025)) ∧
        (eligibleMin records ≠ [] →
          ∃ m1 m2, eligibleMin records = m1 ++ worst :: m2 ∧
            (∀ x ∈ m1, worst.v2025 < x.v2025) ∧ (∀ x ∈ m2, worst.v2025 ≤ x.v2025))) ∧
    ((build_ecom_comparison_context (some exCompTable)).comp_summary.map
      (fun s => (s.max_month, s.max_value, s.min_month, s.min_value)) =
      some ("Jan", "150", "Feb", "50")) := by
  constructor
  · intro records hne
    match records with
    | r :: rs =>
      by_cases hel : eligibleMin (r :: rs) = []
      · have hmm : compMaxMin (r :: rs) =
            (some (pickFirstMaxBy (fun e => e.v2025) r rs),
             some (pickFirstMinBy (fun e => e.v2025) r rs)) := by
          simp [compMaxMin, hel]
        refine ⟨_, _, hmm, ?_, fun _ => ?_, fun h' => absurd hel h'⟩
        · obtain ⟨l1, l2, heq, h1, h2⟩ := pickFirstMaxBy_split (fun e => e.v2025) rs r
          exact ⟨l1, l2, heq, h1, h2⟩
        · obtain ⟨m1, m2, heq, h1, h2⟩ := pickFirstMinBy_split (fun e => e.v2025) rs r
          exact ⟨m1, m2, heq, h1, h2⟩
      · obtain ⟨m, ms, hm⟩ : ∃ m ms, eligibleMin (r :: rs) = m :: ms := by
          cases h : eligibleMin (r :: rs) with
          | nil => exact absurd h hel
          | cons m ms => exact ⟨m, ms, rfl⟩
        have hmm : compMaxMin (r :: rs) =
            (some (pickFirstMaxBy (fun e => e.v2025) r rs),
             some (pickFirstMinBy (fun e => e.v2025) m ms)) := by
          simp [compMaxMin, hm]
        refine ⟨_, _, hmm, ?_, ?_, fun _ => ?_⟩
        · obtain ⟨l1, l2, heq, h1, h2⟩ := pickFirstMaxBy_split (fun e => e.v2025) rs r
          exact ⟨l1, l2, heq, h1, h2⟩
        · intro h'
          exact absurd (h'.symm.trans hm) (by simp)
        · obtain ⟨m1, m2, heq, h1, h2⟩ := pickFirstMinBy_split (fun e => e.v2025) ms m
          rw [hm]
          exact ⟨m1, m2, heq, h1, h2⟩
  · decide

/-- Witness for C6: the characterization applied to the example's
record list. -/
theorem c6_best_and_worst_month_witness :
    ∃ best worst, compMaxMin (comparisonRecords exCompTable) = (some best, some worst) := by
  obtain ⟨best, worst, h, -⟩ :=
    c6_best_and_worst_month.1 (comparisonRecords exCompTable) (by decide)
  exact ⟨best, worst, h⟩

/-! ## Claim C4 -/

/-- Claim C4 counterexample, refuting both halves of the claim:
compute_avg multiplies every parsed score by 100, not only scores of
magnitude at most 1 — the cell "50" yields an average of 5000, not the
50 the claim's conditional scaling would give — and a "nan" score cell
(the str() image of a blank cell's pandas NaN, or literal cell text)
is NOT excluded: float("nan") succeeds, so the cell is included and
the average is NaN, neither the skip nor the null the claim asserts. -/
theorem c4_counterexample :
    compute_avg [[("Average", "50")]] = some (PFloat.num 5000) ∧
    compute_avg [[("Average", "50")]] ≠ some (PFloat.num 50) ∧
    compute_avg [[("Average", "0.5")], [("Average", "nan")]] = some PFloat.nan ∧
    compute_avg [[("Average", "0.5")], [("Average", "nan")]] ≠ none :=
  ⟨by decide, by decide, by decide, by decide⟩

/-- Claim C4 as amended: the per-team average multiplies every parsed
score by 100 unconditionally (no magnitude test); a missing/None cell,
an empty-string cell and a cell float() rejects after %-stripping are
excluded, and the average is null exactly when every cell is excluded;
but the exclusion does NOT cover everything non-numeric: float()'s full
grammar accepts "nan", "inf"/"infinity" and exponent forms, so a NaN
score cell (blank-as-NaN or literal "nan") is included and poisons the
team average to NaN rather than being skipped, an "inf" cell drives it
to infinity, and "7e1" contributes 7000. -/
theorem c4_amended_unconditional_scaling :
    (∀ (rows : List Rec) (r : Rec), okrScore r = none →
      compute_avg (rows ++ [r]) = compute_avg rows) ∧
    (∀ r : Rec, recGet r "Average" = none → okrScore r = none) ∧
    (∀ r : Rec, recGet r "Average" = some "" → okrScore r = none) ∧
    (∀ (r : Rec) (s : String), recGet r "Average" = some s →
      pyFloatFull (pyStrip (strReplace s "%" "")) = none → okrScore r = none) ∧
    (∀ rows : List Rec, rows.filterMap okrScore = [] → compute_avg rows = none) ∧
    (∀ (r : Rec) (s : String) (p : PFloat), recGet r "Average" = some s → s ≠ "" →
      pyFloatFull (pyStrip (strReplace s "%" "")) = some p →
      okrScore r = some (pfMul100 p)) ∧
    (∀ (r : Rec) (s : String) (q : ℚ), recGet r "Average" = some s → s ≠ "" →
      pyFloatFull (pyStrip (strReplace s "%" "")) = some (PFloat.num q) →
      okrScore r = some (PFloat.num (qmul q (qofNat 100)))) ∧
    okrScore [("Average", "nan")] = some PFloat.nan ∧
    compute_avg [[("Average", "0.5")], [("Average", "nan")]] = some PFloat.nan ∧
    compute_avg [[("Average", "7e1")]] = some (PFloat.num 7000) ∧
    compute_avg [[("Average", "inf")]] = some (PFloat.inf false) ∧
    compute_avg [[("Average", "50")]] = some (PFloat.num 5000) ∧
    compute_avg [[("Average", "0.7")]] = some (PFloat.num 70) := by
  refine ⟨?_, ?_, ?_, ?_, ?_, ?_, ?_,
    by decide, by decide, by decide, by decide, by decide, by decide⟩
  · intro rows r h
    simp [compute_avg, List.filterMap_append, h]
  · intro r h
    simp [okrScore, h]
  · intro r h
    simp [okrScore, h]
  · intro r s hs hf
    by_cases he : s = ""
    · simp [okrScore, hs, he]
    · simp [okrScore, hs, he, hf]
  · intro rows h
    simp [compute_avg, h]
  · intro r s p hs he hq
    simp [okrScore, hs, he, hq]
  · intro r s q hs he hq
    simp [okrScore, hs, he, hq, pfMul100]

/-- Witness for C4's amended claim: a non-numeric cell is excluded, and
the fractional score 0.7 is scaled to 70. -/
theorem c4_amended_witness :
    compute_avg ([] ++ [[("Average", "abc")]]) = compute_avg [] ∧
    okrScore [("Average", "0.7")] =
      some (PFloat.num (qmul (mantVal ['0'] ['7']) (qofNat 100))) := by
  constructor
  · exact c4_amended_unconditional_scaling.1 [] [("Average", "abc")] (by decide)
  · exact c4_amended_unconditional_scaling.2.2.2.2.2.2.1 [("Average", "0.7")] "0.7"
      (mantVal ['0'] ['7']) (by decide) (by decide) (by decide)

/-! ## Claim C5 -/

/-- Claim C5 counterexample: the OKR functional-team listing is NOT in
first-seen order — the teams appear in input order B, A, yet okr_page
iterates them as A, B, because all_teams is sorted(set(...) | set(...));
so the quarter listing is not the only re-sorted grouping. -/
theorem c5_counterexample :
    (okr_page (some exOkrTable)).map (fun t => t.team) = ["A", "B"] ∧
    (exOkrTable.rows.map okrTeamOf) = ["B", "A"] ∧
    (["A", "B"] : List String) ≠ ["B", "A"] :=
  ⟨by decide, by decide, by decide⟩

theorem addToGroup_keys {α : Type} (gs : List (String × List α)) (k : String) (v : α) :
    groupKeys (addToGroup gs k v) =
      if k ∈ groupKeys gs then groupKeys gs else groupKeys gs ++ [k] := by
  induction gs with
  | nil => simp [addToGroup, groupKeys]
  | cons p rest ih =>
      obtain ⟨k', vs⟩ := p
      by_cases h : k' = k
      · simp [addToGroup, groupKeys, h]
      · have h' : ¬(k = k') := fun hc => h hc.symm
        simp only [addToGroup, groupKeys, if_neg h, List.map_cons, List.mem_cons] at ih ⊢
        rw [ih]
        by_cases hm : k ∈ rest.map (fun p => p.1)
        · simp [hm, h']
        · simp [hm, h']

theorem planFold_keys (rows : List Rec) :
    ∀ (g : String) (gs : List (String × List PlanEntry)),
      groupKeys ((rows.foldl planStep (g, gs)).2) =
        (rows.map pillarOf).foldl
          (fun acc x => if x ∈ acc then acc else acc ++ [x]) (groupKeys gs) := by
  induction rows with
  | nil => intro g gs; rfl
  | cons r rows ih =>
      intro g gs
      simp only [List.foldl_cons, List.map_cons]
      rw [show planStep (g, gs) r =
        (planGoal g r, addToGroup gs (pillarOf r) (planEntryOf (planGoal g r) r)) from rfl]
      rw [ih (planGoal g r) (addToGroup gs (pillarOf r) (planEntryOf (planGoal g r) r))]
      rw [addToGroup_keys]

/-- Claim C5 as amended: grouping is first-seen insertion-ordered in
general (shown for the strategy builder's pillar fold and on the spec's
B,A,B,C example for both the strategy and SWOT builders), with TWO
exceptions rather than one: the roadmap quarter listing is re-sorted
lexicographically after grouping, and the OKR functional-team listing is
likewise sorted alphabetically over the union of the 2025/2026 team
keys. -/
theorem c5_amended_grouping_order :
    (∀ (rows : List Rec) (g : String),
      groupKeys ((rows.foldl planStep (g, [])).2) = firstSeen (rows.map pillarOf)) ∧
    firstSeen ["B", "A", "B", "C"] = ["B", "A", "C"] ∧
    groupKeys (get_strategy_plan_context (some exPlanTable)).pillars = ["B", "A", "C"] ∧
    groupKeys (swot_page (some exSwotTable)).sections = ["B", "A", "C"] ∧
    (∀ o : Option Table, List.Sorted (fun a b : String => a.data ≤ b.data)
      (get_roadmap_context o).quarter_order) ∧
    (∀ o : Option Table,
      ((get_roadmap_context o).quarter_order).Perm
        (groupKeys (get_roadmap_context o).quarters)) ∧
    (∀ t25 t26 : List (String × List Rec),
      List.Sorted (fun a b : String => a.data ≤ b.data) (okrAllTeams t25 t26) ∧
      (okrAllTeams t25 t26).Perm (firstSeen (groupKeys t25 ++ groupKeys t26))) ∧
    (okr_page (some exOkrTable)).map (fun t => t.team) = ["A", "B"] := by
  refine ⟨?_, by decide, by decide, by decide, ?_, ?_, ?_, by decide⟩
  · intro rows g
    rw [planFold_keys]
    rfl
  · intro o
    simp only [get_roadmap_context]
    split
    · exact List.sorted_nil
    · exact List.sorted_insertionSort _ _
  · intro o
    simp only [get_roadmap_context]
    split
    · exact List.Perm.refl _
    · exact List.perm_insertionSort _ _
  · intro t25 t26
    exact ⟨List.sorted_insertionSort _ _, List.perm_insertionSort _ _⟩

/-! ## Claim C7 -/

/-- Claim C7 counterexample: fmt_int does NOT share fmt_money's
parse-then-format pipeline — it calls bare float() without stripping
separators, so on "1,234" fmt_money renders "1,234.00" while fmt_int
falls back to "0" instead of rendering "1,234". -/
theorem c7_counterexample :
    fmtIntStr "1,234" = "0" ∧
    fmt_money (some "1,234") 2 = "1,234.00" ∧
    fmtIntStr "1,234" ≠ "1,234" :=
  ⟨by decide, by decide, by decide⟩

/-- Claim C7 as amended: fmt_int converts its argument with bare
float() (no separator stripping, unlike fmt_money's parse_number
pipeline) and formats it with zero decimals; whenever float() fails it
returns the literal "0", while fmt_money returns the empty string
whenever parse_number fails — the fallback asymmetry holds for every
input the respective parser rejects. -/
theorem c7_amended_fallback_asymmetry :
    (∀ s : String, pyFloat s = none → fmtIntStr s = "0") ∧
    (∀ (v : Option String) (d : ℕ), parse_number v = none → fmt_money v d = "") ∧
    pyFloat "1,234" = none ∧
    parse_number (some "1,234") = some 1234 ∧
    fmtIntStr "1,234" = "0" ∧
    fmt_money (some "1,234") 2 = "1,234.00" ∧
    ("0" : String) ≠ "" := by
  refine ⟨?_, ?_, by decide, by decide, by decide, by decide, by decide⟩
  · intro s h
    simp [fmtIntStr, h]
  · intro v d h
    simp [fmt_money, h]

/-- Witness for C7's amended claim at a concrete unparseable input. -/
theorem c7_amended_fallback_asymmetry_witness :
    fmtIntStr "x" = "0" ∧ fmt_money (some "x") 2 = "" :=
  ⟨c7_amended_fallback_asymmetry.1 "x" (by decide),
   c7_amended_fallback_asymmetry.2.1 (some "x") 2 (by decide)⟩

/-! ## Claim C8 -/

theorem keepNumeric_removeSeps (l : List Char) :
    keepNumeric (removeSeps l) = keepNumeric l := by
  induction l with
  | nil => rfl
  | cons c cs ih =>
      by_cases h1 : c = ','
      · subst h1
        simp only [keepNumeric, removeSeps, List.filter_cons] at ih ⊢
        simpa using ih
      · by_cases h2 : c = ' '
        · subst h2
          simp only [keepNumeric, removeSeps, List.filter_cons] at ih ⊢
          simpa using ih
        · simp only [keepNumeric, removeSeps, List.filter_cons, h1, h2] at ih ⊢
          simp only [decide_eq_true_eq] at *
          rw [if_pos (by simp [h1, h2])]
          by_cases h3 : (c.isDigit || decide (c = '.') || decide (c = '-')) = true
          · simp only [List.filter_cons, h3, if_true, ih]
          · simp only [List.filter_cons, h3, if_false, ih]

theorem keepNumeric_idem (l : List Char) : keepNumeric (keepNumeric l) = keepNumeric l := by
  induction l with
  | nil => rfl
  | cons c cs ih =>
      simp only [keepNumeric, List.filter_cons] at ih ⊢
      by_cases h : (c.isDigit || decide (c = '.') || decide (c = '-')) = true
      · rw [if_pos h, List.filter_cons, if_pos h, ih]
      · rw [if_neg h, ih]

/-- Claim C8: parse_number maps None, the empty string and "nan" to
null; a value with no digit/dot/minus characters left after cleaning
yields null; the result depends only on the kept characters (grouping
separators, whitespace and all other junk characters are transparent);
and the function is total — every input yields null or a float, never an
error. -/
theorem c8_parse_number_never_raises :
    parse_number none = none ∧
    parse_number (some "") = none ∧
    parse_number (some "nan") = none ∧
    (∀ s : String, keepNumeric (removeSeps s.data) = [] → parse_number (some s) = none) ∧
    (∀ s : String, s ≠ "" →
      parse_number (some s) = parse_number (some (String.mk (keepNumeric s.data)))) ∧
    (∀ v : Option String, parse_number v = none ∨ ∃ q : ℚ, parse_number v = some q) := by
  have hempty : pyFloatChars [] = none := by decide
  refine ⟨by decide, by decide, by decide, ?_, ?_, ?_⟩
  · intro s h
    by_cases hs : s = ""
    · rw [hs]
      decide
    · simp only [parse_number, if_neg hs]
      rw [h]
      exact hempty
  · intro s hs
    simp only [parse_number, if_neg hs]
    by_cases hk : keepNumeric s.data = []
    · have hlhs : keepNumeric (removeSeps s.data) = [] := by
        rw [keepNumeric_removeSeps, hk]
      have hstr : String.mk (keepNumeric s.data) = "" := by
        rw [hk]
      rw [hlhs, hstr]
      simp [hempty]
    · have hne : String.mk (keepNumeric s.data) ≠ "" := by
        intro hc
        apply hk
        have : (String.mk (keepNumeric s.data)).data = ("" : String).data := by rw [hc]
        simpa using this
      rw [if_neg hne]
      rw [keepNumeric_removeSeps, keepNumeric_removeSeps, keepNumeric_idem]
  · intro v
    cases h : parse_number v with
    | none => exact Or.inl rfl
    | some q => exact Or.inr ⟨q, rfl⟩

/-! ## Claim C9: lemmas about digit rendering and parsing -/

theorem digitChar_props (d : ℕ) (h : d < 10) :
    (digitChar d).isDigit = true ∧ digitVal (digitChar d) = d ∧
    digitChar d ≠ ',' ∧ digitChar d ≠ '.' ∧ digitChar d ≠ '-' ∧
    digitChar d ≠ ' ' ∧ (digitChar d).isWhitespace = false := by
  interval_cases d <;>
    exact ⟨by decide, by decide, by decide, by decide, by decide, by decide, by decide⟩

theorem isDigit_props {c : Char} (h : c.isDigit = true) :
    c ≠ ',' ∧ c ≠ '.' ∧ c ≠ '-' ∧ c ≠ ' ' ∧ c ≠ '+' ∧ c.isWhitespace = false := by
  refine ⟨?_, ?_, ?_, ?_, ?_, ?_⟩
  · intro hc; rw [hc] at h; exact absurd h (by decide)
  · intro hc; rw [hc] at h; exact absurd h (by decide)
  · intro hc; rw [hc] at h; exact absurd h (by decide)
  · intro hc; rw [hc] at h; exact absurd h (by decide)
  · intro hc; rw [hc] at h; exact absurd h (by decide)
  · by_contra hw
    rw [Bool.not_eq_false] at hw
    simp only [Char.isWhitespace, Bool.or_eq_true, decide_eq_true_eq] at hw
    rcases hw with ((h1 | h1) | h1) | h1 <;> (rw [h1] at h; exact absurd h (by decide))

theorem natDigitsLE_lt (n : ℕ) : ∀ d ∈ natDigitsLE n, d < 10 := by
  rw [natDigitsLE_eq]
  intro d hd
  exact Nat.digits_lt_base (by norm_num) hd

theorem foldl_digits_eq_ofDigits (ds : List ℕ) (h : ∀ d ∈ ds, d < 10) :
    natFromDigits ((ds.map digitChar).reverse) = Nat.ofDigits 10 ds := by
  induction ds with
  | nil => rfl
  | cons d ds ih =>
      have hd : d < 10 := h d (List.mem_cons_self d ds)
      have hds : ∀ x ∈ ds, x < 10 := fun x hx => h x (List.mem_cons_of_mem d hx)
      simp only [List.map_cons, List.reverse_cons]
      simp only [natFromDigits] at ih ⊢
      rw [List.foldl_append]
      simp only [List.foldl_cons, List.foldl_nil]
      rw [ih hds, Nat.ofDigits_cons, (digitChar_props d hd).2.1]
      omega

theorem natFromDigits_digitsBE (n : ℕ) : natFromDigits (digitsBE n) = n := by
  rw [digitsBE, foldl_digits_eq_ofDigits _ (natDigitsLE_lt n), natDigitsLE_eq,
    Nat.ofDigits_digits]

theorem digitsBE_digits (n : ℕ) : ∀ c ∈ digitsBE n, c.isDigit = true := by
  intro c hc
  rw [digitsBE, List.mem_reverse] at hc
  obtain ⟨d, hd, rfl⟩ := List.mem_map.mp hc
  exact (digitChar_props d (natDigitsLE_lt n d hd)).1

theorem digitsBE_length_le {n k : ℕ} (h : n < 10 ^ k) : (digitsBE n).length ≤ k := by
  rw [digitsBE, List.length_reverse, List.length_map, natDigitsLE_eq]
  by_cases hn : n = 0
  · subst hn
    simp
  · rw [Nat.digits_len 10 n (by norm_num) hn]
    have hl : Nat.log 10 n < k := Nat.log_lt_of_lt_pow hn h
    omega

theorem padDigits_digits (d n : ℕ) : ∀ c ∈ padDigits d n, c.isDigit = true := by
  intro c hc
  rw [padDigits, List.mem_append] at hc
  rcases hc with hc | hc
  · rw [List.eq_of_mem_replicate hc]
    decide
  · exact digitsBE_digits n c hc

theorem foldl_digitAcc_replicate_zero (k : ℕ) :
    List.foldl (fun a c => 10 * a + digitVal c) 0 (List.replicate k '0') = 0 := by
  induction k with
  | zero => rfl
  | succ k ih =>
      rw [List.replicate_succ, List.foldl_cons]
      simpa using ih

theorem natFromDigits_padDigits (d n : ℕ) : natFromDigits (padDigits d n) = n := by
  rw [padDigits, natFromDigits, List.foldl_append, foldl_digitAcc_replicate_zero,
    ← natFromDigits, natFromDigits_digitsBE]

theorem padDigits_length {d n : ℕ} (h : n < 10 ^ d) : (padDigits d n).length = d := by
  rw [padDigits, List.length_append, List.length_replicate]
  have := digitsBE_length_le h
  omega

theorem dropWhile_eq_of_forall (p : Char → Bool) (l : List Char)
    (h : ∀ c ∈ l, p c = false) : l.dropWhile p = l := by
  cases l with
  | nil => rfl
  | cons c cs =>
      rw [List.dropWhile_cons, h c (List.mem_cons_self c cs)]
      simp

theorem stripChars_eq_of_no_ws (l : List Char) (h : ∀ c ∈ l, c.isWhitespace = false) :
    stripChars l = l := by
  rw [stripChars, dropWhile_eq_of_forall _ _ h, dropWhile_eq_of_forall, List.reverse_reverse]
  intro c hc
  exact h c (List.mem_reverse.mp hc)

theorem takeWhile_append_all (p : Char → Bool) (l1 l2 : List Char)
    (h : ∀ c ∈ l1, p c = true) : (l1 ++ l2).takeWhile p = l1 ++ l2.takeWhile p := by
  induction l1 with
  | nil => rfl
  | cons c cs ih =>
      have hc := h c (List.mem_cons_self c cs)
      simp [List.takeWhile_cons, hc, ih (fun x hx => h x (List.mem_cons_of_mem c hx))]

theorem dropWhile_append_all (p : Char → Bool) (l1 l2 : List Char)
    (h : ∀ c ∈ l1, p c = true) : (l1 ++ l2).dropWhile p = l2.dropWhile p := by
  induction l1 with
  | nil => rfl
  | cons c cs ih =>
      have hc := h c (List.mem_cons_self c cs)
      simp [List.dropWhile_cons, hc, ih (fun x hx => h x (List.mem_cons_of_mem c hx))]

theorem floatVal_digits_dot (ics fcs : List Char) (h1 : ∀ c ∈ ics, c.isDigit = true) :
    floatVal (ics ++ '.' :: fcs) =
      qadd (qofNat (natFromDigits ics))
        (qdiv (qofNat (natFromDigits fcs)) (qofNat (10 ^ fcs.length))) := by
  have hp : ∀ c ∈ ics, (decide (c ≠ '.')) = true := by
    intro c hc
    simp [(isDigit_props (h1 c hc)).2.1]
  rw [floatVal]
  rw [takeWhile_append_all _ _ _ hp, dropWhile_append_all _ _ _ hp]
  simp

theorem floatBodyOk_digits_dot (ics fcs : List Char)
    (h1 : ∀ c ∈ ics, c.isDigit = true) (h2 : ∀ c ∈ fcs, c.isDigit = true)
    (hne : ics ≠ []) : floatBodyOk (ics ++ '.' :: fcs) = true := by
  rw [floatBodyOk]
  refine Bool.and_eq_true_iff.mpr ⟨Bool.and_eq_true_iff.mpr ⟨?_, ?_⟩, ?_⟩
  · rw [List.all_eq_true]
    intro c hc
    rcases List.mem_append.mp hc with hc | hc
    · simp [h1 c hc]
    · rcases List.mem_cons.mp hc with hc | hc
      · simp [hc]
      · simp [h2 c hc]
  · have hi : List.count '.' ics = 0 := by
      rw [List.count_eq_zero]
      intro hc
      exact absurd (h1 '.' hc) (by decide)
    have hf : List.count '.' fcs = 0 := by
      rw [List.count_eq_zero]
      intro hc
      exact absurd (h2 '.' hc) (by decide)
    simp only [List.count_append, hi, List.count_cons_self, hf]
    decide
  · rw [List.any_eq_true]
    obtain ⟨c, ics', rfl⟩ : ∃ c t, ics = c :: t := by
      cases ics with
      | nil => exact absurd rfl hne
      | cons c t => exact ⟨c, t, rfl⟩
    exact ⟨c, by simp, h1 c (List.mem_cons_self _ _)⟩

theorem pyFloatChars_digits_dot (ics fcs : List Char)
    (h1 : ∀ c ∈ ics, c.isDigit = true) (h2 : ∀ c ∈ fcs, c.isDigit = true)
    (hne : ics ≠ []) :
    pyFloatChars (ics ++ '.' :: fcs) =
      some (qadd (qofNat (natFromDigits ics))
        (qdiv (qofNat (natFromDigits fcs)) (qofNat (10 ^ fcs.length)))) := by
  have hnw : ∀ c ∈ ics ++ '.' :: fcs, c.isWhitespace = false := by
    intro c hc
    rcases List.mem_append.mp hc with hc | hc
    · exact (isDigit_props (h1 c hc)).2.2.2.2.2
    · rcases List.mem_cons.mp hc with hc | hc
      · rw [hc]
        decide
      · exact (isDigit_props (h2 c hc)).2.2.2.2.2
  obtain ⟨c, ics', rfl⟩ : ∃ c t, ics = c :: t := by
    cases ics with
    | nil => exact absurd rfl hne
    | cons c t => exact ⟨c, t, rfl⟩
  have hcd := h1 c (List.mem_cons_self c ics')
  have hsplit : splitSign ((c :: ics') ++ '.' :: fcs) = (false, (c :: ics') ++ '.' :: fcs) := by
    rw [List.cons_append, splitSign, if_neg (isDigit_props hcd).2.2.1,
      if_neg (isDigit_props hcd).2.2.2.2.1]
  simp only [pyFloatChars, stripChars_eq_of_no_ws _ hnw, hsplit,
    floatBodyOk_digits_dot _ _ h1 h2 hne, if_true,
    floatVal_digits_dot _ _ h1, Bool.false_eq_true, if_false]

theorem pyFloatChars_neg_digits_dot (ics fcs : List Char)
    (h1 : ∀ c ∈ ics, c.isDigit = true) (h2 : ∀ c ∈ fcs, c.isDigit = true)
    (hne : ics ≠ []) :
    pyFloatChars ('-' :: (ics ++ '.' :: fcs)) =
      some (qneg (qadd (qofNat (natFromDigits ics))
        (qdiv (qofNat (natFromDigits fcs)) (qofNat (10 ^ fcs.length))))) := by
  have hnw : ∀ c ∈ '-' :: (ics ++ '.' :: fcs), c.isWhitespace = false := by
    intro c hc
    rcases List.mem_cons.mp hc with hc | hc
    · rw [hc]
      decide
    · rcases List.mem_append.mp hc with hc | hc
      · exact (isDigit_props (h1 c hc)).2.2.2.2.2
      · rcases List.mem_cons.mp hc with hc | hc
        · rw [hc]
          decide
        · exact (isDigit_props (h2 c hc)).2.2.2.2.2
  have hsplit : splitSign ('-' :: (ics ++ '.' :: fcs)) = (true, ics ++ '.' :: fcs) := by
    rw [splitSign, if_pos rfl]
  simp only [pyFloatChars, stripChars_eq_of_no_ws _ hnw, hsplit,
    floatBodyOk_digits_dot _ _ h1 h2 hne, if_true,
    floatVal_digits_dot _ _ h1]

theorem removeSeps_of_digits (cs : List Char) (h : ∀ c ∈ cs, c.isDigit = true) :
    removeSeps cs = cs := by
  rw [removeSeps, List.filter_eq_self]
  intro c hc
  simp [(isDigit_props (h c hc)).1, (isDigit_props (h c hc)).2.2.2.1]

theorem groupLE_removeSeps (cs : List Char) (h : ∀ c ∈ cs, c.isDigit = true) :
    ∀ k, removeSeps (groupLE cs k) = cs := by
  induction cs with
  | nil => intro k; rfl
  | cons c cs ih =>
      intro k
      have hc := h c (List.mem_cons_self c cs)
      have hcs := fun x hx => h x (List.mem_cons_of_mem c hx)
      have hckeep : (!(decide (c = ',') || decide (c = ' '))) = true := by
        simp [(isDigit_props hc).1, (isDigit_props hc).2.2.2.1]
      rw [groupLE]
      by_cases hk : k = 3
      · rw [if_pos hk]
        calc removeSeps (',' :: c :: groupLE cs 1) = removeSeps (c :: groupLE cs 1) := rfl
          _ = c :: removeSeps (groupLE cs 1) := by
              rw [removeSeps, List.filter_cons, if_pos hckeep, removeSeps]
          _ = c :: cs := by rw [ih hcs 1]
      · rw [if_neg hk]
        calc removeSeps (c :: groupLE cs (k + 1)) = c :: removeSeps (groupLE cs (k + 1)) := by
              rw [removeSeps, List.filter_cons, if_pos hckeep, removeSeps]
          _ = c :: cs := by rw [ih hcs (k + 1)]

theorem mapDigitChar_digits (n : ℕ) :
    ∀ c ∈ (natDigitsLE n).map digitChar, c.isDigit = true := by
  intro c hc
  obtain ⟨d, hd, rfl⟩ := List.mem_map.mp hc
  exact (digitChar_props d (natDigitsLE_lt n d hd)).1

theorem removeSeps_commaNat (n : ℕ) :
    removeSeps (commaNat n) = if n = 0 then ['0'] else digitsBE n := by
  by_cases hn : n = 0
  · subst hn
    decide
  · rw [commaNat, if_neg hn, removeSeps, List.filter_reverse,
      ← removeSeps, groupLE_removeSeps _ (mapDigitChar_digits n) 0, digitsBE, if_neg hn]

theorem commaNat_digits_ne_nil (n : ℕ) :
    (if n = 0 then ['0'] else digitsBE n) ≠ [] ∧
    (∀ c ∈ (if n = 0 then ['0'] else digitsBE n), c.isDigit = true) ∧
    natFromDigits (if n = 0 then ['0'] else digitsBE n) = n := by
  by_cases hn : n = 0
  · subst hn
    exact ⟨by decide, by decide, by decide⟩
  · rw [if_neg hn]
    refine ⟨?_, digitsBE_digits n, natFromDigits_digitsBE n⟩
    rw [digitsBE]
    simp only [ne_eq, List.reverse_eq_nil_iff, List.map_eq_nil_iff, natDigitsLE_eq]
    exact Nat.digits_ne_nil_iff_ne_zero.mpr hn

theorem keepP_of_digit {c : Char} (h : c.isDigit = true) :
    (c.isDigit || decide (c = '.') || decide (c = '-')) = true := by
  simp [h]

/-- The unsigned body of a rendered two-decimal money string parses back
to integer-part + fraction/100. -/
theorem pyFloat_money_body (m : ℕ) :
    pyFloatChars ((if m / 10 ^ 2 = 0 then ['0'] else digitsBE (m / 10 ^ 2)) ++
        '.' :: padDigits 2 (m % 10 ^ 2)) =
      some (qadd (qofNat (m / 10 ^ 2)) (qdiv (qofNat (m % 10 ^ 2)) (qofNat (10 ^ 2)))) := by
  have hb := commaNat_digits_ne_nil (m / 10 ^ 2)
  have hlt : m % 10 ^ 2 < 10 ^ 2 := Nat.mod_lt _ (by norm_num)
  rw [pyFloatChars_digits_dot _ _ hb.2.1 (padDigits_digits _ _) hb.1,
    hb.2.2, natFromDigits_padDigits, padDigits_length hlt]

/-- The signed variant. -/
theorem pyFloat_money_body_neg (m : ℕ) :
    pyFloatChars ('-' :: ((if m / 10 ^ 2 = 0 then ['0'] else digitsBE (m / 10 ^ 2)) ++
        '.' :: padDigits 2 (m % 10 ^ 2))) =
      some (qneg (qadd (qofNat (m / 10 ^ 2))
        (qdiv (qofNat (m % 10 ^ 2)) (qofNat (10 ^ 2))))) := by
  have hb := commaNat_digits_ne_nil (m / 10 ^ 2)
  have hlt : m % 10 ^ 2 < 10 ^ 2 := Nat.mod_lt _ (by norm_num)
  rw [pyFloatChars_neg_digits_dot _ _ hb.2.1 (padDigits_digits _ _) hb.1,
    hb.2.2, natFromDigits_padDigits, padDigits_length hlt]

/-- Integer part plus fraction/100 reassembles m/100. -/
theorem money_value_eq (m : ℕ) :
    qadd (qofNat (m / 10 ^ 2)) (qdiv (qofNat (m % 10 ^ 2)) (qofNat (10 ^ 2))) =
      qdiv (qofNat m) (qofNat 100) := by
  have h100 : (10 : ℕ) ^ 2 = 100 := by norm_num
  rw [h100, qadd_eq, qdiv_eq, qdiv_eq, qofNat_eq, qofNat_eq, qofNat_eq, qofNat_eq]
  have key : (100 : ℚ) * ((m / 100 : ℕ) : ℚ) + ((m % 100 : ℕ) : ℚ) = (m : ℚ) := by
    exact_mod_cast Nat.div_add_mod m 100
  field_simp
  linarith

/-- The characters of a rendered two-decimal money string. -/
theorem fmtMoneyVal_data (q : ℚ) :
    (fmtMoneyVal q 2).data =
      (if rnd 2 q < 0 then ['-'] else []) ++ commaNat ((rnd 2 q).natAbs / 10 ^ 2) ++
        '.' :: padDigits 2 ((rnd 2 q).natAbs % 10 ^ 2) := rfl

/-- Parsing a rendered two-decimal money value recovers exactly the
rounded value rnd(2,q)/100: the separators are stripped, the digit
string is re-read, and nothing else survives. -/
theorem parse_number_fmtMoneyVal (q : ℚ) :
    parse_number (some (fmtMoneyVal q 2)) = some (qdiv (qofInt (rnd 2 q)) (qofNat 100)) := by
  have hb := commaNat_digits_ne_nil ((rnd 2 q).natAbs / 10 ^ 2)
  have hpad := padDigits_digits 2 ((rnd 2 q).natAbs % 10 ^ 2)
  have hne : fmtMoneyVal q 2 ≠ "" := by
    intro hc
    have h2 := congrArg String.data hc
    rw [fmtMoneyVal_data] at h2
    simp at h2
  have hrm2 : removeSeps ('.' :: padDigits 2 ((rnd 2 q).natAbs % 10 ^ 2)) =
      '.' :: padDigits 2 ((rnd 2 q).natAbs % 10 ^ 2) := by
    calc removeSeps ('.' :: padDigits 2 ((rnd 2 q).natAbs % 10 ^ 2))
        = '.' :: removeSeps (padDigits 2 ((rnd 2 q).natAbs % 10 ^ 2)) := rfl
      _ = '.' :: padDigits 2 ((rnd 2 q).natAbs % 10 ^ 2) := by
          rw [removeSeps_of_digits _ hpad]
  have hkeepBody : keepNumeric ((if (rnd 2 q).natAbs / 10 ^ 2 = 0 then ['0']
        else digitsBE ((rnd 2 q).natAbs / 10 ^ 2)) ++
        '.' :: padDigits 2 ((rnd 2 q).natAbs % 10 ^ 2)) =
      (if (rnd 2 q).natAbs / 10 ^ 2 = 0 then ['0']
        else digitsBE ((rnd 2 q).natAbs / 10 ^ 2)) ++
        '.' :: padDigits 2 ((rnd 2 q).natAbs % 10 ^ 2) := by
    rw [keepNumeric, List.filter_eq_self]
    intro c hc
    rcases List.mem_append.mp hc with hc | hc
    · exact keepP_of_digit (hb.2.1 c hc)
    · rcases List.mem_cons.mp hc with hc | hc
      · rw [hc]
        decide
      · exact keepP_of_digit (hpad c hc)
  simp only [parse_number, if_neg hne]
  rw [fmtMoneyVal_data]
  by_cases hneg : rnd 2 q < 0
  · rw [if_pos hneg]
    have hrm : removeSeps (['-'] ++ commaNat ((rnd 2 q).natAbs / 10 ^ 2) ++
        '.' :: padDigits 2 ((rnd 2 q).natAbs % 10 ^ 2)) =
        '-' :: ((if (rnd 2 q).natAbs / 10 ^ 2 = 0 then ['0']
          else digitsBE ((rnd 2 q).natAbs / 10 ^ 2)) ++
          '.' :: padDigits 2 ((rnd 2 q).natAbs % 10 ^ 2)) := by
      rw [removeSeps, List.filter_append, List.filter_append,
        ← removeSeps, ← removeSeps, ← removeSeps, removeSeps_commaNat, hrm2]
      simp [removeSeps]
    rw [hrm]
    have hkeep : keepNumeric ('-' :: ((if (rnd 2 q).natAbs / 10 ^ 2 = 0 then ['0']
        else digitsBE ((rnd 2 q).natAbs / 10 ^ 2)) ++
        '.' :: padDigits 2 ((rnd 2 q).natAbs % 10 ^ 2))) =
        '-' :: ((if (rnd 2 q).natAbs / 10 ^ 2 = 0 then ['0']
          else digitsBE ((rnd 2 q).natAbs / 10 ^ 2)) ++
          '.' :: padDigits 2 ((rnd 2 q).natAbs % 10 ^ 2)) := by
      rw [keepNumeric, List.filter_cons]
      rw [show ((('-' : Char).isDigit || decide (('-' : Char) = '.') ||
        decide (('-' : Char) = '-'))) = true from by decide]
      exact congrArg (List.cons '-') hkeepBody
    rw [hkeep, pyFloat_money_body_neg, money_value_eq]
    congr 1
    rw [qneg_eq, qdiv_eq, qdiv_eq, qofNat_eq, qofNat_eq, qofInt_eq, Int.cast_natAbs,
      abs_of_neg hneg]
    push_cast
    ring
  · rw [if_neg hneg]
    have hrm : removeSeps ([] ++ commaNat ((rnd 2 q).natAbs / 10 ^ 2) ++
        '.' :: padDigits 2 ((rnd 2 q).natAbs % 10 ^ 2)) =
        (if (rnd 2 q).natAbs / 10 ^ 2 = 0 then ['0']
          else digitsBE ((rnd 2 q).natAbs / 10 ^ 2)) ++
          '.' :: padDigits 2 ((rnd 2 q).natAbs % 10 ^ 2) := by
      rw [removeSeps, List.filter_append, List.filter_append,
        ← removeSeps, ← removeSeps, ← removeSeps, removeSeps_commaNat, hrm2]
      simp [removeSeps]
    rw [hrm, hkeepBody, pyFloat_money_body, money_value_eq]
    congr 1
    rw [qdiv_eq, qdiv_eq, qofNat_eq, qofNat_eq, qofInt_eq, Int.cast_natAbs,
      abs_of_nonneg (not_lt.mp hneg)]

/-- rnd in terms of the Mathlib floor. -/
theorem rnd_eq_floor (q : ℚ) : rnd 2 q = ⌊q * 100 + 1 / 2⌋ := by
  rw [rnd, qfloor_eq, qadd_eq, qmul_eq, qofNat_eq]
  norm_num
  congr 1
  rw [Rat.divInt_eq_div]
  norm_num

/-- The two-decimal rounding moves the value by at most 1/200. -/
theorem rnd2_bound (q : ℚ) : |((rnd 2 q : ℤ) : ℚ) / 100 - q| ≤ 1 / 200 := by
  have h1 : ((rnd 2 q : ℤ) : ℚ) ≤ q * 100 + 1 / 2 := by
    rw [rnd_eq_floor]
    exact Int.floor_le _
  have h2 : q * 100 + 1 / 2 < ((rnd 2 q : ℤ) : ℚ) + 1 := by
    rw [rnd_eq_floor]
    exact Int.lt_floor_add_one _
  rw [abs_le]
  constructor <;> linarith

/-- Claim C9: for every numeric string s with thousands separators that
parse_number reads as q, re-parsing the two-decimal money rendering of q
yields exactly rnd(2,q)/100 — i.e. parseNumber ∘ formatMoney ∘
parseNumber reconstructs the parsed value up to the rounding of the
fixed two-decimal format, whose error is at most 1/200. -/
theorem c9_parse_format_round_trip (s : String) (q : ℚ)
    (_hsep : ',' ∈ s.data) (_hp : parse_number (some s) = some q) :
    parse_number (some (fmtMoneyVal q 2)) = some (qdiv (qofInt (rnd 2 q)) (qofNat 100)) ∧
    qdiv (qofInt (rnd 2 q)) (qofNat 100) = ((rnd 2 q : ℤ) : ℚ) / 100 ∧
    |((rnd 2 q : ℤ) : ℚ) / 100 - q| ≤ 1 / 200 := by
  refine ⟨parse_number_fmtMoneyVal q, ?_, rnd2_bound q⟩
  rw [qdiv_eq, qofInt_eq, qofNat_eq]
  norm_num

/-- Witness for C9 at s = "1,234.5": the round trip gives "1,234.50",
which re-parses to 1234.5 exactly. -/
theorem c9_parse_format_round_trip_witness :
    (',' ∈ ("1,234.5" : String).data) ∧
    parse_number (some "1,234.5") = some (qdiv (qofNat 2469) (qofNat 2)) ∧
    parse_number (some (fmtMoneyVal (qdiv (qofNat 2469) (qofNat 2)) 2)) =
      some (qdiv (qofInt (rnd 2 (qdiv (qofNat 2469) (qofNat 2)))) (qofNat 100)) ∧
    fmtMoneyVal (qdiv (qofNat 2469) (qofNat 2)) 2 = "1,234.50" ∧
    |((rnd 2 (qdiv (qofNat 2469) (qofNat 2)) : ℤ) : ℚ) / 100 -
      qdiv (qofNat 2469) (qofNat 2)| ≤ 1 / 200 := by
  have h := c9_parse_format_round_trip "1,234.5" (qdiv (qofNat 2469) (qofNat 2))
    (by decide) (by decide)
  exact ⟨by decide, by decide, h.1, by decide, h.2.2⟩

/-- Witness for C8 at concrete inputs: junk-only input, an input full of
separators and junk, and a plain digit. -/
theorem c8_parse_number_never_raises_witness :
    parse_number (some "abc") = none ∧
    parse_number (some "1,2 34.5xyz") =
      parse_number (some (String.mk (keepNumeric "1,2 34.5xyz".data))) ∧
    (parse_number (some "7") = none ∨ ∃ q : ℚ, parse_number (some "7") = some q) :=
  ⟨c8_parse_number_never_raises.2.2.2.1 "abc" (by decide),
   c8_parse_number_never_raises.2.2.2.2.1 "1,2 34.5xyz" (by decide),
   c8_parse_number_never_raises.2.2.2.2.2 (some "7")⟩

end StratConsole
